import Mathlib

/-!
Shallow embedding of the semantic ruleset validator (the `validate-semantics`
script of this repository) and proofs about the claims of its specification.

Modelling conventions:
* YAML-parsed JavaScript values are modelled by the inductive `JValue`;
  `undefined` (an absent object key) is modelled by `Option.none` at lookup
  sites, while the YAML `null` value is the constructor `JValue.null`.
* JavaScript numbers are modelled by `JNum`: either `NaN` or an exact
  rational.  Arithmetic on finite values is exact rational arithmetic and
  `NaN` is absorbing, mirroring IEEE semantics at the granularity the
  validator uses (sums, comparisons, integrality tests).
* The filesystem-existence probe (`fs.access`) is modelled by an explicit
  parameter `fsExists : String → Bool`, and the selector table by the list
  of its keys.
* All diagnostic strings are reproduced byte for byte from the source,
  including the mojibake `Â±` in the weights warning.
-/

namespace RulesetSemantics

/-- A single quote character, used inside diagnostic messages. -/
def sq : String := String.singleton (Char.ofNat 39)

/-- JavaScript `String.prototype.trim`: strip leading and trailing
whitespace (modelled over the character data, ASCII whitespace). -/
def jsTrim (s : String) : String :=
  ⟨((s.data.dropWhile Char.isWhitespace).reverse.dropWhile Char.isWhitespace).reverse⟩

/-- JavaScript `String.prototype.toLowerCase` (ASCII model). -/
def jsToLower (s : String) : String := ⟨s.data.map Char.toLower⟩

/-- JavaScript `String.prototype.toUpperCase` (ASCII model). -/
def jsToUpper (s : String) : String := ⟨s.data.map Char.toUpper⟩

/-- JavaScript numbers: `NaN` or an exact rational value. -/
inductive JNum where
  | nan : JNum
  | val : ℚ → JNum
deriving DecidableEq, Repr

/-- JavaScript addition: `NaN` is absorbing. -/
def JNum.add : JNum → JNum → JNum
  | .val a, .val b => .val (a + b)
  | _, _ => .nan

/-- YAML-parsed JavaScript values. -/
inductive JValue where
  | null : JValue
  | bool : Bool → JValue
  | num : JNum → JValue
  | str : String → JValue
  | arr : List JValue → JValue
  | obj : List (String × JValue) → JValue

/-- The `isObject` helper of the source: a non-null non-array object. -/
def isObject : JValue → Bool
  | .obj _ => true
  | _ => false

/-- First-match association lookup over an object's fields. -/
def lookupField : List (String × JValue) → String → Option JValue
  | [], _ => none
  | (k, v) :: rest, key => if k = key then some v else lookupField rest key

/-- JavaScript property access `x.key`; `none` models `undefined`. -/
def getField : JValue → String → Option JValue
  | .obj fs, k => lookupField fs k
  | _, _ => none

/-- The `approxEquals` helper of the source: `Math.abs(a - b) <= eps`,
which is `false` whenever an operand is `NaN`. -/
def approxEquals (a b : JNum) (eps : ℚ) : Bool :=
  match a, b with
  | .val x, .val y => decide (|x - y| ≤ eps)
  | _, _ => false

/-- `Number.isInteger` on an optional value: only a finite number with
denominator 1 qualifies. -/
def isIntegerV : Option JValue → Bool
  | some (.num (.val q)) => q.den == 1
  | _ => false

/-- Whether a looked-up value has JavaScript type `number` (`NaN` included). -/
def isNumV : Option JValue → Bool
  | some (.num _) => true
  | _ => false

/-- Coercion used when summing weights; the validator only reaches it on
values already known to be numbers. -/
def numOf : Option JValue → JNum
  | some (.num n) => n
  | _ => JNum.nan

/-- Decimal rendering of a nonnegative rational to six places,
rounding to nearest with ties toward the larger value (ECMAScript
`toFixed`). -/
def toFixed6Pos (q : ℚ) : String :=
  let n : ℤ := (q * 1000000 + 1 / 2).floor
  let np := n.toNat
  let fs := toString (np % 1000000)
  toString (np / 1000000) ++ "." ++ String.mk (List.replicate (6 - fs.length) (Char.ofNat 48)) ++ fs

/-- ECMAScript `toFixed(6)` on a modelled number. -/
def toFixed6 : JNum → String
  | .nan => "NaN"
  | .val q => if q < 0 then "-" ++ toFixed6Pos (-q) else toFixed6Pos q

/-- Decimal rendering of a number known to be an integer (used in the
`min`/`max` range message). -/
def intStr : JNum → String
  | .val q => toString q.num
  | .nan => "NaN"

/-- ASCII letter test, the case-insensitive `[a-z]` of the language regex. -/
def isAsciiLetter (c : Char) : Bool := c.isLower || c.isUpper

/-- The case-insensitive `[a-z0-9]` class of the language regex. -/
def isTagTail (c : Char) : Bool := isAsciiLetter c || c.isDigit

/-- The regex `/^[a-z]{2}(-[a-z0-9]+)?$/i` of the source. -/
def langTagMatches (s : String) : Bool :=
  match s.data with
  | [a, b] => isAsciiLetter a && isAsciiLetter b
  | a :: b :: h :: rest =>
      isAsciiLetter a && isAsciiLetter b && (h == Char.ofNat 45) &&
      !rest.isEmpty && rest.all isTagTail
  | _ => false

/-- A diagnostic record `{file, path, message}` as pushed by `fail`. -/
structure Diag where
  file : String
  path : String
  message : String
deriving DecidableEq, Repr

/-- Warnings are pushed as fully rendered strings in the source. -/
abbrev Warning := String

def SELECTORS_PATH : String := "schema/selectors.yml"

def ALLOWED_OPS : List String := ["count", "term_density", "llm"]

def ALLOWED_SEVERITIES : List String := ["low", "medium", "high"]

def ALLOWED_DIMENSIONS : List String :=
  ["structure", "answerability", "neutrality", "topical_focus", "entity_binding"]

def REQUIRED_WEIGHTS : List String :=
  ["structure", "answerability", "neutrality", "topical_focus", "entity_binding"]

/-- Prefix of every warning emitted by the `language` checks. -/
def langWarnPrefix (file : String) : String := "WARN " ++ file ++ " language: "

/-- Prefix of every warning emitted by the `weights` checks. -/
def weightsWarnPrefix (file : String) : String := "WARN " ++ file ++ " weights: "

/-- Warnings of the top-level `language` checks. -/
def languageWarnings (file : String) (lv : Option JValue) : List Warning :=
  match lv with
  | some (.str lang) =>
      let normalized := jsToLower (jsTrim lang)
      (if lang ≠ normalized ∧ lang ≠ jsToUpper normalized then
        [langWarnPrefix file ++ (sq ++ lang ++ sq ++ " unusual formatting; consider " ++
          sq ++ "de" ++ sq ++ " or " ++ sq ++ "en" ++ sq ++ ".")]
      else []) ++
      (if langTagMatches (jsTrim lang) then []
      else [langWarnPrefix file ++ (sq ++ lang ++ sq ++ " doesn" ++ sq ++ "t look like a BCP-47 code.")])
  | none => []
  | some _ => [langWarnPrefix file ++ "should be a string (e.g., \"de\")."]

/-- The sum of the five required weights, `reduce((acc, k) => acc + Number(w[k]), 0)`. -/
def weightsSum (w : JValue) : JNum :=
  REQUIRED_WEIGHTS.foldl (fun acc k => JNum.add acc (numOf (getField w k))) (JNum.val 0)

/-- Errors and warnings of the top-level `weights` checks. -/
def weightsResult (file : String) (wv : Option JValue) : List Diag × List Warning :=
  match wv with
  | none => ([], [])
  | some (.obj wfs) =>
      let w := JValue.obj wfs
      let missing := REQUIRED_WEIGHTS.filter (fun k => !isNumV (getField w k))
      if missing.isEmpty then
        let sum := weightsSum w
        if approxEquals sum (JNum.val 1) (1 / 10000) then ([], [])
        else ([], [weightsWarnPrefix file ++ ("sum is " ++ toFixed6 sum ++ ", expected ~1.0 (Â±1e-4).")])
      else
        ([], [weightsWarnPrefix file ++ ("missing or non-numeric keys: " ++ String.intercalate ", " missing)])
  | some _ => ([⟨file, "weights", "weights must be an object if provided."⟩], [])

/-- Errors of the per-check `id` field, with duplicate detection. -/
def idErrors (file base : String) (seen : List String) (v : Option JValue) : List Diag :=
  match v with
  | some (.str s) =>
      if (jsTrim s).length = 0 then
        [⟨file, base ++ ".id", "id is required and must be a non-empty string."⟩]
      else if seen.contains s then
        [⟨file, base ++ ".id", "duplicate id " ++ sq ++ s ++ sq⟩]
      else []
  | _ => [⟨file, base ++ ".id", "id is required and must be a non-empty string."⟩]

/-- Errors of the per-check `severity` field. -/
def severityErrors (file base : String) (v : Option JValue) : List Diag :=
  match v with
  | some (.str s) =>
      if ALLOWED_SEVERITIES.contains s then []
      else [⟨file, base ++ ".severity", "severity must be one of: " ++ String.intercalate ", " ALLOWED_SEVERITIES⟩]
  | _ => [⟨file, base ++ ".severity", "severity must be one of: " ++ String.intercalate ", " ALLOWED_SEVERITIES⟩]

/-- Errors of the per-check `dimension` field. -/
def dimensionErrors (file base : String) (v : Option JValue) : List Diag :=
  match v with
  | some (.str s) =>
      if ALLOWED_DIMENSIONS.contains s then []
      else [⟨file, base ++ ".dimension", "dimension must be one of: " ++ String.intercalate ", " ALLOWED_DIMENSIONS⟩]
  | _ => [⟨file, base ++ ".dimension", "dimension must be one of: " ++ String.intercalate ", " ALLOWED_DIMENSIONS⟩]

/-- Errors of the per-check `penalty` field: `if` not-a-number (or `NaN`)
then one error, `else if` negative then the other. -/
def penaltyErrors (file base : String) (v : Option JValue) : List Diag :=
  match v with
  | some (.num (.val q)) =>
      if q < 0 then [⟨file, base ++ ".penalty", "penalty must be >= 0."⟩] else []
  | _ => [⟨file, base ++ ".penalty", "penalty must be a number."⟩]

/-- Errors of the per-check `message` field. -/
def messageErrors (file base : String) (v : Option JValue) : List Diag :=
  match v with
  | some (.str s) =>
      if (jsTrim s).length = 0 then [⟨file, base ++ ".message", "message must be a non-empty string."⟩]
      else []
  | _ => [⟨file, base ++ ".message", "message must be a non-empty string."⟩]

/-- Errors of the `op=count` selector lookup. -/
def selectorErrors (sel : List String) (file base : String) (selv : Option JValue) : List Diag :=
  match selv with
  | some (.str s) =>
      if (jsTrim s).length = 0 then
        [⟨file, base ++ ".rule.selector", "selector is required for op=count."⟩]
      else if sel.contains s then []
      else [⟨file, base ++ ".rule.selector", sq ++ s ++ sq ++ " is not defined in " ++ SELECTORS_PATH⟩]
  | _ => [⟨file, base ++ ".rule.selector", "selector is required for op=count."⟩]

/-- Errors of the `op=count` field `min`: `!Number.isInteger(min) || min < 0`. -/
def minErrors (file base : String) (minv : Option JValue) : List Diag :=
  match minv with
  | some (.num (.val q)) =>
      if q.den = 1 ∧ 0 ≤ q then []
      else [⟨file, base ++ ".rule.min", "min must be an integer >= 0."⟩]
  | _ => [⟨file, base ++ ".rule.min", "min must be an integer >= 0."⟩]

/-- Errors of the `op=count` field `max`: `!Number.isInteger(max) || max < 0`. -/
def maxErrors (file base : String) (maxv : Option JValue) : List Diag :=
  match maxv with
  | some (.num (.val q)) =>
      if q.den = 1 ∧ 0 ≤ q then []
      else [⟨file, base ++ ".rule.max", "max must be an integer >= 0."⟩]
  | _ => [⟨file, base ++ ".rule.max", "max must be an integer >= 0."⟩]

/-- The `op=count` range check, fired whenever both bounds are integers. -/
def rangeErrors (file base : String) (minv maxv : Option JValue) : List Diag :=
  match minv, maxv with
  | some (.num (.val qm)), some (.num (.val qx)) =>
      if qm.den = 1 ∧ qx.den = 1 ∧ qx < qm then
        [⟨file, base ++ ".rule", "min (" ++ toString qm.num ++ ") must be <= max (" ++ toString qx.num ++ ")."⟩]
      else []
  | _, _ => []

/-- Errors of the `op=count` branch: selector, `min`, `max`, range. -/
def countErrors (sel : List String) (file base : String) (selv minv maxv : Option JValue) : List Diag :=
  selectorErrors sel file base selv ++ minErrors file base minv ++
  maxErrors file base maxv ++ rangeErrors file base minv maxv

/-- Errors of the `op=term_density` field `terms` (one combined error). -/
def termsErrors (file base : String) (termsv : Option JValue) : List Diag :=
  match termsv with
  | some (.arr ts) =>
      if ts.isEmpty ∨ ts.any (fun t => match t with
           | .str s => (jsTrim s).length == 0
           | _ => true) then
        [⟨file, base ++ ".rule.terms", "terms must be a non-empty array of strings."⟩]
      else []
  | _ => [⟨file, base ++ ".rule.terms", "terms must be a non-empty array of strings."⟩]

/-- Errors of the `op=term_density` field `maxDensity`. -/
def maxDensityErrors (file base : String) (maxdv : Option JValue) : List Diag :=
  match maxdv with
  | some (.num (.val q)) =>
      if q < 0 ∨ 1 < q then
        [⟨file, base ++ ".rule.maxDensity", "maxDensity must be a number between 0 and 1."⟩]
      else []
  | _ => [⟨file, base ++ ".rule.maxDensity", "maxDensity must be a number between 0 and 1."⟩]

/-- Errors of the `op=term_density` branch. -/
def termDensityErrors (file base : String) (termsv maxdv : Option JValue) : List Diag :=
  termsErrors file base termsv ++ maxDensityErrors file base maxdv

/-- Errors of the `op=llm` field `promptRef`, including the filesystem probe. -/
def promptRefErrors (fsExists : String → Bool) (file base : String) (refv : Option JValue) : List Diag :=
  match refv with
  | some (.str s) =>
      if (jsTrim s).length = 0 then
        [⟨file, base ++ ".rule.promptRef", "promptRef is required for op=llm."⟩]
      else if fsExists s then []
      else [⟨file, base ++ ".rule.promptRef", "file not found " ++ sq ++ s ++ sq⟩]
  | _ => [⟨file, base ++ ".rule.promptRef", "promptRef is required for op=llm."⟩]

/-- Errors of the optional `op=llm` field `introBlocks`. -/
def introBlocksErrors (file base : String) (ibv : Option JValue) : List Diag :=
  match ibv with
  | none => []
  | some (.num (.val q)) =>
      if q.den = 1 ∧ 1 ≤ q then []
      else [⟨file, base ++ ".rule.introBlocks", "introBlocks must be an integer >= 1."⟩]
  | some _ => [⟨file, base ++ ".rule.introBlocks", "introBlocks must be an integer >= 1."⟩]

/-- Errors of the `op=llm` branch; `fsExists` is the filesystem probe. -/
def llmErrors (fsExists : String → Bool) (file base : String) (refv ibv : Option JValue) : List Diag :=
  promptRefErrors fsExists file base refv ++ introBlocksErrors file base ibv

/-- Errors of the per-check `rule` field including the operator dispatch. -/
def ruleErrors (fsExists : String → Bool) (sel : List String) (file base : String)
    (rv : Option JValue) : List Diag :=
  match rv with
  | some (.obj rfs) =>
      let r := JValue.obj rfs
      (match getField r "op" with
       | some (.str op) =>
           if ALLOWED_OPS.contains op then
             (if op = "count" then
               countErrors sel file base (getField r "selector") (getField r "min") (getField r "max")
             else []) ++
             (if op = "term_density" then
               termDensityErrors file base (getField r "terms") (getField r "maxDensity")
             else []) ++
             (if op = "llm" then
               llmErrors fsExists file base (getField r "promptRef") (getField r "introBlocks")
             else [])
           else [⟨file, base ++ ".rule.op", "op must be one of: " ++ String.intercalate ", " ALLOWED_OPS⟩]
       | _ => [⟨file, base ++ ".rule.op", "op must be one of: " ++ String.intercalate ", " ALLOWED_OPS⟩])
  | _ => [⟨file, base ++ ".rule", "rule is required and must be an object."⟩]

/-- The locator prefix `checks[i]`. -/
def basePath (i : ℕ) : String := "checks[" ++ toString i ++ "]"

/-- Validation of one entry of the `checks` array. -/
def checkOne (fsExists : String → Bool) (sel : List String) (file : String)
    (i : ℕ) (seen : List String) (c : JValue) : List Diag :=
  match c with
  | .obj cfs =>
      let co := JValue.obj cfs
      idErrors file (basePath i) seen (getField co "id") ++
      severityErrors file (basePath i) (getField co "severity") ++
      dimensionErrors file (basePath i) (getField co "dimension") ++
      penaltyErrors file (basePath i) (getField co "penalty") ++
      messageErrors file (basePath i) (getField co "message") ++
      ruleErrors fsExists sel file (basePath i) (getField co "rule")
  | _ => [⟨file, basePath i, "check must be an object."⟩]

/-- The id under which an entry is recorded in `seenIds`, when any. -/
def validId : JValue → Option String
  | .obj cfs =>
      match lookupField cfs "id" with
      | some (.str s) => if (jsTrim s).length = 0 then none else some s
      | _ => none
  | _ => none

/-- The `seenIds.add` step (a set insertion). -/
def updateSeen (seen : List String) (c : JValue) : List String :=
  match validId c with
  | some s => if seen.contains s then seen else s :: seen
  | none => seen

/-- The per-check loop with its `seenIds` state. -/
def validateChecks (fsExists : String → Bool) (sel : List String) (file : String) :
    ℕ → List String → List JValue → List Diag
  | _, _, [] => []
  | i, seen, c :: rest =>
      checkOne fsExists sel file i seen c ++
      validateChecks fsExists sel file (i + 1) (updateSeen seen c) rest

/-- The `checks` array, or `[]` when the field is absent or not an array. -/
def checksArray (cv : Option JValue) : List JValue :=
  match cv with
  | some (.arr cs) => cs
  | _ => []

/-- The `checks must be an array` error, when applicable. -/
def checksErrors (file : String) (cv : Option JValue) : List Diag :=
  match cv with
  | some (.arr _) => []
  | _ => [⟨file, "checks", "checks must be an array."⟩]

/-- The semantic validator on a document that survived the root guard. -/
def validateDoc (fsExists : String → Bool) (sel : List String) (file : String)
    (doc : JValue) : List Diag × List Warning :=
  let langW := languageWarnings file (getField doc "language")
  let wres := weightsResult file (getField doc "weights")
  let cv := getField doc "checks"
  (wres.1 ++ checksErrors file cv ++ validateChecks fsExists sel file 0 [] (checksArray cv),
   langW ++ wres.2)

/-- Root-shape diagnostics for a successfully parsed value. -/
def rootShapeErrors (file : String) (v : JValue) : List Diag :=
  match v with
  | .null => [⟨file, "(root)", "Ruleset is empty (YAML parsed to null)."⟩]
  | .obj _ => []
  | _ => [⟨file, "(root)", "Ruleset must be an object."⟩]

/-- Root diagnostics of one file: a parse exception leaves `ruleset` at
`null`, so it also triggers the `Ruleset is empty` diagnostic. -/
def rootErrors (file : String) (parsed : Except String JValue) : List Diag :=
  match parsed with
  | .error e => ⟨file, "(root)", "YAML parse error: " ++ e⟩ :: rootShapeErrors file JValue.null
  | .ok v => rootShapeErrors file v

/-- Full processing of one file: root guard, then the semantic validator. -/
def processFile (fsExists : String → Bool) (sel : List String) (file : String)
    (parsed : Except String JValue) : List Diag × List Warning :=
  let re := rootErrors file parsed
  if re.isEmpty then
    validateDoc fsExists sel file (match parsed with | .ok v => v | .error _ => JValue.null)
  else (re, [])

/-- The per-file report: name, errors, warnings. -/
structure FileReport where
  file : String
  errors : List Diag
  warnings : List Warning
deriving DecidableEq, Repr

/-- A file is reported failed exactly when `errors.length > 0`. -/
def reportFailed (r : FileReport) : Bool := !r.errors.isEmpty

/-- The whole run over the discovered files: reports plus process exit code. -/
def runAll (fsExists : String → Bool) (sel : List String)
    (files : List (String × Except String JValue)) : List FileReport × ℕ :=
  let reports := files.map (fun fp =>
    let ew := processFile fsExists sel fp.1 fp.2
    FileReport.mk fp.1 ew.1 ew.2)
  (reports, if reports.any reportFailed then 1 else 0)

/-- The console lines printed for one file, in order: warnings, then either
the `FAIL` lines or the single `OK` line. -/
def renderReport (r : FileReport) : List String :=
  r.warnings ++
  (if reportFailed r then
    r.errors.map (fun e => "FAIL " ++ e.file ++ " " ++ e.path ++ ": " ++ e.message)
  else ["OK   semantic " ++ r.file])

/-- Whether the character list `p` is an initial run of `l`. -/
def leadsWith : List Char → List Char → Bool
  | [], _ => true
  | _ :: _, [] => false
  | a :: p, b :: l => a == b && leadsWith p l

/-- Whether a diagnostic is a duplicate-id error (its message starts with
`duplicate id `). -/
def isDupDiag (d : Diag) : Bool := leadsWith "duplicate id ".data d.message.data

/-- Whether a warning line belongs to the `weights` checks of `file`. -/
def weightsWarnOf (file : String) (w : Warning) : Bool :=
  leadsWith (weightsWarnPrefix file).data w.data

/-- Whether a warning line belongs to the `language` checks of `file`. -/
def langWarnOf (file : String) (w : Warning) : Bool :=
  leadsWith (langWarnPrefix file).data w.data

/-- The duplicate-id diagnostic reported at index `i` for id `s`. -/
def mkDupDiag (file : String) (i : ℕ) (s : String) : Diag :=
  ⟨file, basePath i ++ ".id", "duplicate id " ++ sq ++ s ++ sq⟩

/-- The JavaScript comparison `x >= 0`, which is `false` on `NaN`
(claim-side definition used to state the specification's reading of the
`penalty` conditions). -/
def jsNumGE0 : JNum → Bool
  | .nan => false
  | .val q => decide (0 ≤ q)

end RulesetSemantics

/-! ## Infrastructure lemmas -/

namespace RulesetSemantics

lemma strData_append (s t : String) : (s ++ t).data = s.data ++ t.data := rfl

lemma strAppend_assoc (a b c : String) : a ++ b ++ c = a ++ (b ++ c) :=
  String.ext (by simp [strData_append])

lemma strAppend_left_cancel {a b c : String} (h : a ++ b = a ++ c) : b = c := by
  have hd : a.data ++ b.data = a.data ++ c.data := by
    have hdata := congrArg String.data h
    rwa [strData_append, strData_append] at hdata
  exact String.ext (List.append_cancel_left hd)

lemma strAppend_ne_of_ne (a : String) {b c : String} (h : b ≠ c) : a ++ b ≠ a ++ c :=
  fun hc => h (strAppend_left_cancel hc)

lemma strLength_zero {t : String} (h : t.length = 0) : t = "" := by
  cases t with
  | mk l => exact String.ext (List.length_eq_zero.mp h)

lemma checksPrefix_ne_weights (t : String) : ("checks[" ++ t) ≠ "weights" := by
  intro h
  have hl := congrArg String.length h
  rw [String.length_append] at hl
  have h7 : ("checks[" : String).length = 7 := rfl
  have h7w : ("weights" : String).length = 7 := rfl
  rw [h7, h7w] at hl
  have ht : t = "" := strLength_zero (by omega)
  subst ht
  exact absurd h (by decide)

lemma checksPrefix_ne_checks (t : String) : ("checks[" ++ t) ≠ "checks" := by
  intro h
  have hl := congrArg String.length h
  rw [String.length_append] at hl
  have h7 : ("checks[" : String).length = 7 := rfl
  have h6 : ("checks" : String).length = 6 := rfl
  rw [h7, h6] at hl
  omega

lemma checksPrefix_ne_root (t : String) : ("checks[" ++ t) ≠ "(root)" := by
  intro h
  have hl := congrArg String.length h
  rw [String.length_append] at hl
  have h7 : ("checks[" : String).length = 7 := rfl
  have h6 : ("(root)" : String).length = 6 := rfl
  rw [h7, h6] at hl
  omega

lemma leadsWith_append_same : ∀ (a b c : List Char), leadsWith (a ++ b) (a ++ c) = leadsWith b c
  | [], _, _ => rfl
  | x :: a, b, c => by simp [leadsWith, leadsWith_append_same a b c]

lemma filter_path_eq_nil {p : String} {l : List Diag} (h : ∀ d ∈ l, d.path ≠ p) :
    l.filter (fun d => d.path == p) = [] :=
  List.filter_eq_nil_iff.mpr (fun d hd => by simp [h d hd])

lemma filter_isDup_eq_nil {l : List Diag} (h : ∀ d ∈ l, isDupDiag d = false) :
    l.filter isDupDiag = [] :=
  List.filter_eq_nil_iff.mpr (fun d hd => by simp [h d hd])

end RulesetSemantics

namespace RulesetSemantics

lemma idErrors_path {file base : String} {seen : List String} {v : Option JValue} {d : Diag}
    (h : d ∈ idErrors file base seen v) : d.path = base ++ ".id" := by
  unfold idErrors at h
  repeat' split at h
  all_goals simp_all

lemma severityErrors_path {file base : String} {v : Option JValue} {d : Diag}
    (h : d ∈ severityErrors file base v) : d.path = base ++ ".severity" := by
  unfold severityErrors at h
  repeat' split at h
  all_goals simp_all

lemma dimensionErrors_path {file base : String} {v : Option JValue} {d : Diag}
    (h : d ∈ dimensionErrors file base v) : d.path = base ++ ".dimension" := by
  unfold dimensionErrors at h
  repeat' split at h
  all_goals simp_all

lemma penaltyErrors_path {file base : String} {v : Option JValue} {d : Diag}
    (h : d ∈ penaltyErrors file base v) : d.path = base ++ ".penalty" := by
  unfold penaltyErrors at h
  repeat' split at h
  all_goals simp_all

lemma messageErrors_path {file base : String} {v : Option JValue} {d : Diag}
    (h : d ∈ messageErrors file base v) : d.path = base ++ ".message" := by
  unfold messageErrors at h
  repeat' split at h
  all_goals simp_all

lemma selectorErrors_path {sel : List String} {file base : String} {v : Option JValue} {d : Diag}
    (h : d ∈ selectorErrors sel file base v) : d.path = base ++ ".rule.selector" := by
  unfold selectorErrors at h
  repeat' split at h
  all_goals simp_all

lemma minErrors_path {file base : String} {v : Option JValue} {d : Diag}
    (h : d ∈ minErrors file base v) : d.path = base ++ ".rule.min" := by
  unfold minErrors at h
  repeat' split at h
  all_goals simp_all

lemma maxErrors_path {file base : String} {v : Option JValue} {d : Diag}
    (h : d ∈ maxErrors file base v) : d.path = base ++ ".rule.max" := by
  unfold maxErrors at h
  repeat' split at h
  all_goals simp_all

lemma rangeErrors_path {file base : String} {v w : Option JValue} {d : Diag}
    (h : d ∈ rangeErrors file base v w) : d.path = base ++ ".rule" := by
  unfold rangeErrors at h
  repeat' split at h
  all_goals simp_all

lemma termsErrors_path {file base : String} {v : Option JValue} {d : Diag}
    (h : d ∈ termsErrors file base v) : d.path = base ++ ".rule.terms" := by
  unfold termsErrors at h
  repeat' split at h
  all_goals simp_all

lemma maxDensityErrors_path {file base : String} {v : Option JValue} {d : Diag}
    (h : d ∈ maxDensityErrors file base v) : d.path = base ++ ".rule.maxDensity" := by
  unfold maxDensityErrors at h
  repeat' split at h
  all_goals simp_all

lemma promptRefErrors_path {fsE : String → Bool} {file base : String} {v : Option JValue} {d : Diag}
    (h : d ∈ promptRefErrors fsE file base v) : d.path = base ++ ".rule.promptRef" := by
  unfold promptRefErrors at h
  repeat' split at h
  all_goals simp_all

lemma introBlocksErrors_path {file base : String} {v : Option JValue} {d : Diag}
    (h : d ∈ introBlocksErrors file base v) : d.path = base ++ ".rule.introBlocks" := by
  unfold introBlocksErrors at h
  repeat' split at h
  all_goals simp_all

lemma countErrors_path {sel : List String} {file base : String} {selv minv maxv : Option JValue}
    {d : Diag} (h : d ∈ countErrors sel file base selv minv maxv) :
    ∃ t : String, d.path = base ++ t := by
  simp only [countErrors, List.mem_append] at h
  rcases h with ((h | h) | h) | h
  · exact ⟨_, selectorErrors_path h⟩
  · exact ⟨_, minErrors_path h⟩
  · exact ⟨_, maxErrors_path h⟩
  · exact ⟨_, rangeErrors_path h⟩

lemma termDensityErrors_path {file base : String} {termsv maxdv : Option JValue}
    {d : Diag} (h : d ∈ termDensityErrors file base termsv maxdv) :
    ∃ t : String, d.path = base ++ t := by
  simp only [termDensityErrors, List.mem_append] at h
  rcases h with h | h
  · exact ⟨_, termsErrors_path h⟩
  · exact ⟨_, maxDensityErrors_path h⟩

lemma llmErrors_path {fsE : String → Bool} {file base : String} {refv ibv : Option JValue}
    {d : Diag} (h : d ∈ llmErrors fsE file base refv ibv) :
    ∃ t : String, d.path = base ++ t := by
  simp only [llmErrors, List.mem_append] at h
  rcases h with h | h
  · exact ⟨_, promptRefErrors_path h⟩
  · exact ⟨_, introBlocksErrors_path h⟩

lemma ruleErrors_path {fsE : String → Bool} {sel : List String} {file base : String}
    {rv : Option JValue} {d : Diag} (h : d ∈ ruleErrors fsE sel file base rv) :
    ∃ t : String, d.path = base ++ t := by
  unfold ruleErrors at h
  split at h
  · dsimp only at h
    split at h
    · split at h
      · simp only [List.mem_append] at h
        rcases h with (h | h) | h
        · split at h
          · exact countErrors_path h
          · exact absurd h (List.not_mem_nil d)
        · split at h
          · exact termDensityErrors_path h
          · exact absurd h (List.not_mem_nil d)
        · split at h
          · exact llmErrors_path h
          · exact absurd h (List.not_mem_nil d)
      · simp only [List.mem_singleton] at h
        subst h
        exact ⟨_, rfl⟩
    · simp only [List.mem_singleton] at h
      subst h
      exact ⟨_, rfl⟩
  · simp only [List.mem_singleton] at h
    subst h
    exact ⟨_, rfl⟩

lemma checkOne_path {fsE : String → Bool} {sel : List String} {file : String} {i : ℕ}
    {seen : List String} {c : JValue} {d : Diag} (h : d ∈ checkOne fsE sel file i seen c) :
    ∃ t : String, d.path = basePath i ++ t := by
  unfold checkOne at h
  split at h
  case _ =>
    simp only [List.mem_append] at h
    rcases h with ((((h | h) | h) | h) | h) | h
    · exact ⟨_, idErrors_path h⟩
    · exact ⟨_, severityErrors_path h⟩
    · exact ⟨_, dimensionErrors_path h⟩
    · exact ⟨_, penaltyErrors_path h⟩
    · exact ⟨_, messageErrors_path h⟩
    · exact ruleErrors_path h
  case _ =>
    simp only [List.mem_singleton] at h
    subst h
    exact ⟨"", by simp⟩

lemma validateChecks_path {fsE : String → Bool} {sel : List String} {file : String} :
    ∀ {cs : List JValue} {i : ℕ} {seen : List String} {d : Diag},
      d ∈ validateChecks fsE sel file i seen cs → ∃ t : String, d.path = "checks[" ++ t := by
  intro cs
  induction cs with
  | nil => intro i seen d h; exact absurd h (List.not_mem_nil d)
  | cons c rest ih =>
    intro i seen d h
    simp only [validateChecks, List.mem_append] at h
    rcases h with h | h
    · obtain ⟨t, ht⟩ := checkOne_path h
      exact ⟨toString i ++ ("]" ++ t), by rw [ht, basePath]; simp [strAppend_assoc]⟩
    · exact ih h

end RulesetSemantics

namespace RulesetSemantics

lemma severityErrors_isDup {file base : String} {v : Option JValue} {d : Diag}
    (h : d ∈ severityErrors file base v) : isDupDiag d = false := by
  unfold severityErrors at h
  repeat' split at h
  all_goals simp only [List.mem_singleton, List.not_mem_nil] at h
  all_goals first
    | exact h.elim
    | (subst h; rfl)

lemma dimensionErrors_isDup {file base : String} {v : Option JValue} {d : Diag}
    (h : d ∈ dimensionErrors file base v) : isDupDiag d = false := by
  unfold dimensionErrors at h
  repeat' split at h
  all_goals simp only [List.mem_singleton, List.not_mem_nil] at h
  all_goals first
    | exact h.elim
    | (subst h; rfl)

lemma penaltyErrors_isDup {file base : String} {v : Option JValue} {d : Diag}
    (h : d ∈ penaltyErrors file base v) : isDupDiag d = false := by
  unfold penaltyErrors at h
  repeat' split at h
  all_goals simp only [List.mem_singleton, List.not_mem_nil] at h
  all_goals first
    | exact h.elim
    | (subst h; rfl)

lemma messageErrors_isDup {file base : String} {v : Option JValue} {d : Diag}
    (h : d ∈ messageErrors file base v) : isDupDiag d = false := by
  unfold messageErrors at h
  repeat' split at h
  all_goals simp only [List.mem_singleton, List.not_mem_nil] at h
  all_goals first
    | exact h.elim
    | (subst h; rfl)

lemma selectorErrors_isDup {sel : List String} {file base : String} {v : Option JValue} {d : Diag}
    (h : d ∈ selectorErrors sel file base v) : isDupDiag d = false := by
  unfold selectorErrors at h
  repeat' split at h
  all_goals simp only [List.mem_singleton, List.not_mem_nil] at h
  all_goals first
    | exact h.elim
    | (subst h; rfl)

lemma minErrors_isDup {file base : String} {v : Option JValue} {d : Diag}
    (h : d ∈ minErrors file base v) : isDupDiag d = false := by
  unfold minErrors at h
  repeat' split at h
  all_goals simp only [List.mem_singleton, List.not_mem_nil] at h
  all_goals first
    | exact h.elim
    | (subst h; rfl)

lemma maxErrors_isDup {file base : String} {v : Option JValue} {d : Diag}
    (h : d ∈ maxErrors file base v) : isDupDiag d = false := by
  unfold maxErrors at h
  repeat' split at h
  all_goals simp only [List.mem_singleton, List.not_mem_nil] at h
  all_goals first
    | exact h.elim
    | (subst h; rfl)

lemma rangeErrors_isDup {file base : String} {v w : Option JValue} {d : Diag}
    (h : d ∈ rangeErrors file base v w) : isDupDiag d = false := by
  unfold rangeErrors at h
  repeat' split at h
  all_goals simp only [List.mem_singleton, List.not_mem_nil] at h
  all_goals first
    | exact h.elim
    | (subst h; rfl)

lemma termsErrors_isDup {file base : String} {v : Option JValue} {d : Diag}
    (h : d ∈ termsErrors file base v) : isDupDiag d = false := by
  unfold termsErrors at h
  repeat' split at h
  all_goals simp only [List.mem_singleton, List.not_mem_nil] at h
  all_goals first
    | exact h.elim
    | (subst h; rfl)

lemma maxDensityErrors_isDup {file base : String} {v : Option JValue} {d : Diag}
    (h : d ∈ maxDensityErrors file base v) : isDupDiag d = false := by
  unfold maxDensityErrors at h
  repeat' split at h
  all_goals simp only [List.mem_singleton, List.not_mem_nil] at h
  all_goals first
    | exact h.elim
    | (subst h; rfl)

lemma promptRefErrors_isDup {fsE : String → Bool} {file base : String} {v : Option JValue} {d : Diag}
    (h : d ∈ promptRefErrors fsE file base v) : isDupDiag d = false := by
  unfold promptRefErrors at h
  repeat' split at h
  all_goals simp only [List.mem_singleton, List.not_mem_nil] at h
  all_goals first
    | exact h.elim
    | (subst h; rfl)

lemma introBlocksErrors_isDup {file base : String} {v : Option JValue} {d : Diag}
    (h : d ∈ introBlocksErrors file base v) : isDupDiag d = false := by
  unfold introBlocksErrors at h
  repeat' split at h
  all_goals simp only [List.mem_singleton, List.not_mem_nil] at h
  all_goals first
    | exact h.elim
    | (subst h; rfl)

lemma countErrors_isDup {sel : List String} {file base : String} {selv minv maxv : Option JValue}
    {d : Diag} (h : d ∈ countErrors sel file base selv minv maxv) : isDupDiag d = false := by
  simp only [countErrors, List.mem_append] at h
  rcases h with ((h | h) | h) | h
  · exact selectorErrors_isDup h
  · exact minErrors_isDup h
  · exact maxErrors_isDup h
  · exact rangeErrors_isDup h

lemma termDensityErrors_isDup {file base : String} {termsv maxdv : Option JValue}
    {d : Diag} (h : d ∈ termDensityErrors file base termsv maxdv) : isDupDiag d = false := by
  simp only [termDensityErrors, List.mem_append] at h
  rcases h with h | h
  · exact termsErrors_isDup h
  · exact maxDensityErrors_isDup h

lemma llmErrors_isDup {fsE : String → Bool} {file base : String} {refv ibv : Option JValue}
    {d : Diag} (h : d ∈ llmErrors fsE file base refv ibv) : isDupDiag d = false := by
  simp only [llmErrors, List.mem_append] at h
  rcases h with h | h
  · exact promptRefErrors_isDup h
  · exact introBlocksErrors_isDup h

lemma ruleErrors_isDup {fsE : String → Bool} {sel : List String} {file base : String}
    {rv : Option JValue} {d : Diag} (h : d ∈ ruleErrors fsE sel file base rv) :
    isDupDiag d = false := by
  unfold ruleErrors at h
  split at h
  · dsimp only at h
    split at h
    · split at h
      · simp only [List.mem_append] at h
        rcases h with (h | h) | h
        · split at h
          · exact countErrors_isDup h
          · exact absurd h (List.not_mem_nil d)
        · split at h
          · exact termDensityErrors_isDup h
          · exact absurd h (List.not_mem_nil d)
        · split at h
          · exact llmErrors_isDup h
          · exact absurd h (List.not_mem_nil d)
      · simp only [List.mem_singleton] at h
        subst h
        rfl
    · simp only [List.mem_singleton] at h
      subst h
      rfl
  · simp only [List.mem_singleton] at h
    subst h
    rfl

end RulesetSemantics

namespace RulesetSemantics

@[simp] lemma isDup_required_msg (f p : String) :
    isDupDiag ⟨f, p, "id is required and must be a non-empty string."⟩ = false := rfl

@[simp] lemma isDup_dup_msg (f p s : String) :
    isDupDiag ⟨f, p, "duplicate id " ++ sq ++ s ++ sq⟩ = true := rfl

lemma idErrors_filter_dup (file base : String) (seen : List String) (v : Option JValue) :
    (idErrors file base seen v).filter isDupDiag =
      (match v with
       | some (.str s) =>
           if (jsTrim s).length = 0 then []
           else if seen.contains s then
             [⟨file, base ++ ".id", "duplicate id " ++ sq ++ s ++ sq⟩]
           else []
       | _ => ([] : List Diag)) := by
  unfold idErrors
  repeat' split
  all_goals simp [List.filter_singleton]

lemma checkOne_filter_dup (fsE : String → Bool) (sel : List String) (file : String)
    (i : ℕ) (seen : List String) (c : JValue) :
    (checkOne fsE sel file i seen c).filter isDupDiag =
      (match validId c with
       | some s => if seen.contains s then [mkDupDiag file i s] else []
       | none => []) := by
  cases c with
  | obj cfs =>
    unfold checkOne
    dsimp only
    rw [List.filter_append, List.filter_append, List.filter_append, List.filter_append,
      List.filter_append,
      filter_isDup_eq_nil (fun d hd => severityErrors_isDup hd),
      filter_isDup_eq_nil (fun d hd => dimensionErrors_isDup hd),
      filter_isDup_eq_nil (fun d hd => penaltyErrors_isDup hd),
      filter_isDup_eq_nil (fun d hd => messageErrors_isDup hd),
      filter_isDup_eq_nil (fun d hd => ruleErrors_isDup hd),
      idErrors_filter_dup]
    simp only [List.append_nil]
    unfold validId
    dsimp only
    have hg : getField (JValue.obj cfs) "id" = lookupField cfs "id" := rfl
    rw [hg]
    cases hv : lookupField cfs "id" with
    | none => rfl
    | some v =>
      cases v
      case str s =>
        by_cases ht : (jsTrim s).length = 0
        · simp [ht]
        · simp [ht, mkDupDiag, basePath]
      all_goals rfl
  | null => rfl
  | bool b => rfl
  | num n => rfl
  | str s => rfl
  | arr l => rfl

lemma checkOne_seen (fsE : String → Bool) (sel : List String) (file : String)
    (i : ℕ) (seen : List String) (c : JValue) :
    checkOne fsE sel file i seen c =
      (match validId c with
       | some s => if seen.contains s then [mkDupDiag file i s] else []
       | none => []) ++ checkOne fsE sel file i [] c := by
  cases c with
  | obj cfs =>
    unfold checkOne validId
    dsimp only
    have hg : getField (JValue.obj cfs) "id" = lookupField cfs "id" := rfl
    rw [hg]
    cases hv : lookupField cfs "id" with
    | none => simp [idErrors]
    | some v =>
      cases v
      case str s =>
        by_cases ht : (jsTrim s).length = 0
        · simp [idErrors, ht]
        · by_cases hc : seen.contains s
          · simp [idErrors, ht, hc, mkDupDiag, basePath]
          · simp [idErrors, ht, hc, mkDupDiag, basePath]
      all_goals simp [idErrors]
  | null => rfl
  | bool b => rfl
  | num n => rfl
  | str s => rfl
  | arr l => rfl

end RulesetSemantics

namespace RulesetSemantics

lemma processFile_checksOnly (fsE : String → Bool) (sel : List String) (file : String)
    (cs : List JValue) :
    processFile fsE sel file (.ok (JValue.obj [("checks", JValue.arr cs)])) =
      (validateChecks fsE sel file 0 [] cs, []) := rfl

lemma validateChecks_dup_aux (fsE : String → Bool) (sel : List String) (file : String)
    (cs : List JValue) (j k : ℕ) (s : String)
    (hjk : j < k) (hk : k < cs.length)
    (hj : validId (cs.get ⟨j, lt_trans hjk hk⟩) = some s)
    (hk2 : validId (cs.get ⟨k, hk⟩) = some s)
    (huniq : ∀ (m₁ m₂ : ℕ) (h₁ : m₁ < cs.length) (h₂ : m₂ < cs.length), m₁ < m₂ →
      ¬(m₁ = j ∧ m₂ = k) → ∀ t, validId (cs.get ⟨m₁, h₁⟩) = some t →
      validId (cs.get ⟨m₂, h₂⟩) = some t → False) :
    ∀ (n i : ℕ) (seen : List String), cs.length - i = n →
      (∀ t : String, seen.contains t = true ↔
        ∃ (m : ℕ) (hm : m < cs.length), m < i ∧ validId (cs.get ⟨m, hm⟩) = some t) →
      (validateChecks fsE sel file i seen (cs.drop i)).filter isDupDiag =
        if i ≤ k then [mkDupDiag file k s] else [] := by
  intro n
  induction n with
  | zero =>
    intro i seen hn hinv
    have hle : cs.length ≤ i := Nat.le_of_sub_eq_zero hn
    rw [List.drop_eq_nil_of_le hle, validateChecks, List.filter_nil, if_neg (by omega)]
  | succ n ih =>
    intro i seen hn hinv
    have hi : i < cs.length := by omega
    have hdrop : cs.drop i = cs.get ⟨i, hi⟩ :: cs.drop (i + 1) := by
      rw [List.drop_eq_getElem_cons hi, List.get_eq_getElem]
    rw [hdrop, validateChecks, List.filter_append, checkOne_filter_dup]
    have hinv2 : ∀ t : String, (updateSeen seen (cs.get ⟨i, hi⟩)).contains t = true ↔
        ∃ (m : ℕ) (hm : m < cs.length), m < i + 1 ∧ validId (cs.get ⟨m, hm⟩) = some t := by
      intro t
      unfold updateSeen
      cases hv : validId (cs.get ⟨i, hi⟩) with
      | none =>
        rw [hinv t]
        constructor
        · rintro ⟨m, hm, hmi, hval⟩
          exact ⟨m, hm, by omega, hval⟩
        · rintro ⟨m, hm, hmi, hval⟩
          rcases Nat.lt_succ_iff_lt_or_eq.mp hmi with hmi | hmi
          · exact ⟨m, hm, hmi, hval⟩
          · subst hmi
            rw [hval] at hv
            exact absurd hv (by simp)
      | some u =>
        dsimp only
        by_cases hcon : seen.contains u
        · rw [if_pos hcon, hinv t]
          constructor
          · rintro ⟨m, hm, hmi, hval⟩
            exact ⟨m, hm, by omega, hval⟩
          · rintro ⟨m, hm, hmi, hval⟩
            rcases Nat.lt_succ_iff_lt_or_eq.mp hmi with hmi | hmi
            · exact ⟨m, hm, hmi, hval⟩
            · subst hmi
              rw [hval] at hv
              have htu : t = u := by injection hv
              subst htu
              exact (hinv t).mp hcon
        · rw [if_neg hcon]
          simp only [List.contains_cons]
          constructor
          · intro hmem
            rcases Bool.or_eq_true_iff.mp hmem with hmem | hmem
            · have htu : t = u := by simpa using hmem
              subst htu
              exact ⟨i, hi, by omega, hv⟩
            · obtain ⟨m, hm, hmi, hval⟩ := (hinv t).mp hmem
              exact ⟨m, hm, by omega, hval⟩
          · rintro ⟨m, hm, hmi, hval⟩
            rcases Nat.lt_succ_iff_lt_or_eq.mp hmi with hmi | hmi
            · exact Bool.or_eq_true_iff.mpr (Or.inr ((hinv t).mpr ⟨m, hm, hmi, hval⟩))
            · subst hmi
              rw [hval] at hv
              have htu : t = u := by injection hv
              subst htu
              simp
    rw [ih (i + 1) (updateSeen seen (cs.get ⟨i, hi⟩)) (by omega) hinv2]
    by_cases hik : i = k
    · subst hik
      rw [hk2]
      dsimp only
      have hcon : seen.contains s = true :=
        (hinv s).mpr ⟨j, lt_trans hjk hk, hjk, hj⟩
      rw [if_pos hcon, if_pos (le_refl i), if_neg (by omega), List.append_nil]
    · have hhead : (match validId (cs.get ⟨i, hi⟩) with
          | some t => if seen.contains t then [mkDupDiag file i t] else []
          | none => ([] : List Diag)) = [] := by
        cases hv : validId (cs.get ⟨i, hi⟩) with
        | none => rfl
        | some t =>
          dsimp only
          have hcon : seen.contains t = false := by
            by_contra hcon
            rw [Bool.not_eq_false] at hcon
            obtain ⟨m, hm, hmi, hval⟩ := (hinv t).mp hcon
            exact huniq m i hm hi hmi (fun hmjk => hik hmjk.2) t hval hv
          rw [hcon]
          rfl
      rw [hhead, List.nil_append]
      by_cases hle : i ≤ k
      · rw [if_pos (by omega : i + 1 ≤ k), if_pos hle]
      · rw [if_neg (by omega : ¬ i + 1 ≤ k), if_neg hle]

end RulesetSemantics

namespace RulesetSemantics

lemma runAll_fst (fsE : String → Bool) (sel : List String)
    (files : List (String × Except String JValue)) :
    (runAll fsE sel files).1 = files.map (fun fp =>
      FileReport.mk fp.1 (processFile fsE sel fp.1 fp.2).1 (processFile fsE sel fp.1 fp.2).2) := rfl

lemma runAll_snd (fsE : String → Bool) (sel : List String)
    (files : List (String × Except String JValue)) :
    (runAll fsE sel files).2 = if (runAll fsE sel files).1.any reportFailed then 1 else 0 := rfl

lemma reportFailed_iff {r : FileReport} : reportFailed r = true ↔ r.errors ≠ [] := by
  simp [reportFailed]

end RulesetSemantics

/-! ## Claim theorems -/

namespace RulesetSemantics

/-- Claim C1: a file is reported failed iff its diagnostic list contains at
least one error; warnings never affect the verdict; the exit code is 0 iff
every processed file (vacuously including a run with zero files) had zero
errors, and 1 iff some file had at least one error. -/
theorem claim1_fail_iff_errors_and_exit_code (fsE : String → Bool) (sel : List String)
    (files : List (String × Except String JValue)) :
    (∀ r ∈ (runAll fsE sel files).1, reportFailed r = true ↔ r.errors ≠ []) ∧
    (∀ (f : String) (e : List Diag) (w₁ w₂ : List Warning),
      reportFailed ⟨f, e, w₁⟩ = reportFailed ⟨f, e, w₂⟩) ∧
    ((runAll fsE sel files).2 = 0 ↔ ∀ r ∈ (runAll fsE sel files).1, r.errors = []) ∧
    ((runAll fsE sel files).2 = 1 ↔ ∃ r ∈ (runAll fsE sel files).1, r.errors ≠ []) := by
  have hkey : (runAll fsE sel files).1.any reportFailed = true ↔
      ∃ r ∈ (runAll fsE sel files).1, r.errors ≠ [] := by
    rw [List.any_eq_true]
    constructor
    · rintro ⟨r, hr, hf⟩
      exact ⟨r, hr, reportFailed_iff.mp hf⟩
    · rintro ⟨r, hr, hf⟩
      exact ⟨r, hr, reportFailed_iff.mpr hf⟩
  refine ⟨fun r _ => reportFailed_iff, fun f e w₁ w₂ => rfl, ?_, ?_⟩
  · rw [runAll_snd]
    by_cases hany : (runAll fsE sel files).1.any reportFailed = true
    · rw [if_pos hany]
      constructor
      · intro h10
        exact absurd h10 one_ne_zero
      · intro hall
        obtain ⟨r, hr, hne⟩ := hkey.mp hany
        exact absurd (hall r hr) hne
    · rw [if_neg hany]
      constructor
      · intro _ r hr
        by_contra hne
        exact hany (hkey.mpr ⟨r, hr, hne⟩)
      · intro _
        rfl
  · rw [runAll_snd]
    by_cases hany : (runAll fsE sel files).1.any reportFailed = true
    · rw [if_pos hany]
      constructor
      · intro _
        exact hkey.mp hany
      · intro _
        rfl
    · rw [if_neg hany]
      constructor
      · intro h01
        exact absurd h01.symm one_ne_zero
      · intro hex
        exact absurd (hkey.mpr hex) hany

/-- Witness for C1 at a concrete two-file run: one file fails (exit code 1)
and its report is failed while the clean file's is not. -/
theorem claim1_witness :
    (runAll (fun _ => false) ["h1"]
      [("a.yaml", .ok JValue.null), ("b.yaml", .ok (JValue.obj [("checks", JValue.arr [])]))]).2 = 1 :=
  (claim1_fail_iff_errors_and_exit_code (fun _ => false) ["h1"]
    [("a.yaml", .ok JValue.null), ("b.yaml", .ok (JValue.obj [("checks", JValue.arr [])]))]).2.2.2.mpr
    ⟨⟨"a.yaml", [⟨"a.yaml", "(root)", "Ruleset is empty (YAML parsed to null)."⟩], []⟩,
      by simp [runAll_fst, processFile, rootErrors, rootShapeErrors], by simp⟩

/-- Claim C9: the validator is a deterministic pure function of the file
content, selector table, and filesystem state; two runs on identical inputs
yield identical error and warning lists, and identical rendered output. -/
theorem claim9_idempotent (fsE : String → Bool) (sel : List String) (file : String)
    (parsed : Except String JValue) (e₁ e₂ : List Diag) (w₁ w₂ : List Warning)
    (h₁ : processFile fsE sel file parsed = (e₁, w₁))
    (h₂ : processFile fsE sel file parsed = (e₂, w₂)) :
    e₁ = e₂ ∧ w₁ = w₂ ∧
    ∀ files : List (String × Except String JValue),
      (runAll fsE sel files).1.map renderReport = (runAll fsE sel files).1.map renderReport := by
  rw [h₁] at h₂
  injection h₂ with he hw
  exact ⟨he, hw, fun _ => rfl⟩

/-- Witness for C9 at a concrete input evaluated twice. -/
theorem claim9_witness :
    ([⟨"f", "(root)", "Ruleset is empty (YAML parsed to null)."⟩] : List Diag) =
      [⟨"f", "(root)", "Ruleset is empty (YAML parsed to null)."⟩] ∧
    ([] : List Warning) = [] ∧
    ∀ files : List (String × Except String JValue),
      (runAll (fun _ => false) ["h1"] files).1.map renderReport =
        (runAll (fun _ => false) ["h1"] files).1.map renderReport :=
  claim9_idempotent (fun _ => false) ["h1"] "f" (.ok JValue.null)
    [⟨"f", "(root)", "Ruleset is empty (YAML parsed to null)."⟩]
    [⟨"f", "(root)", "Ruleset is empty (YAML parsed to null)."⟩] [] [] rfl rfl

/-- Claim C8: a file parsing to `null` or to a non-object produces exactly
one fatal root diagnostic, no warnings (the semantic validator is skipped
entirely), a failed verdict, and per-file results depend only on that
file's own input. -/
theorem claim8_root_guard (fsE : String → Bool) (sel : List String) (file : String)
    (v : JValue) (hnn : v ≠ JValue.null) (hno : isObject v = false) :
    processFile fsE sel file (.ok JValue.null) =
      ([⟨file, "(root)", "Ruleset is empty (YAML parsed to null)."⟩], []) ∧
    processFile fsE sel file (.ok v) =
      ([⟨file, "(root)", "Ruleset must be an object."⟩], []) ∧
    reportFailed ⟨file, (processFile fsE sel file (.ok JValue.null)).1,
      (processFile fsE sel file (.ok JValue.null)).2⟩ = true ∧
    reportFailed ⟨file, (processFile fsE sel file (.ok v)).1,
      (processFile fsE sel file (.ok v)).2⟩ = true ∧
    (∀ (files₁ files₂ : List (String × Except String JValue)) (n : ℕ),
      files₁[n]? = files₂[n]? →
      (runAll fsE sel files₁).1[n]? = (runAll fsE sel files₂).1[n]?) := by
  have hv : processFile fsE sel file (.ok v) =
      ([⟨file, "(root)", "Ruleset must be an object."⟩], []) := by
    cases v with
    | null => exact absurd rfl hnn
    | obj fs => simp [isObject] at hno
    | bool b => rfl
    | num n => rfl
    | str s => rfl
    | arr l => rfl
  refine ⟨rfl, hv, rfl, ?_, ?_⟩
  · rw [hv]
    rfl
  · intro files₁ files₂ n h
    rw [runAll_fst, runAll_fst, List.getElem?_map, List.getElem?_map, h]

/-- Witness for C8 with the concrete non-object value `[]`. -/
theorem claim8_witness :
    processFile (fun _ => false) [] "f" (.ok JValue.null) =
      ([⟨"f", "(root)", "Ruleset is empty (YAML parsed to null)."⟩], []) ∧
    processFile (fun _ => false) [] "f" (.ok (JValue.arr [])) =
      ([⟨"f", "(root)", "Ruleset must be an object."⟩], []) :=
  ⟨(claim8_root_guard (fun _ => false) [] "f" (JValue.arr [])
      (fun h => JValue.noConfusion h) rfl).1,
   (claim8_root_guard (fun _ => false) [] "f" (JValue.arr [])
      (fun h => JValue.noConfusion h) rfl).2.1⟩

end RulesetSemantics

namespace RulesetSemantics

/-- Counterexample to C2 as stated: the ids `" "` are identical non-empty
strings, yet the validator reports no duplicate-id error at all (a
whitespace-only id fails the required-id check instead, because the source
tests `id.trim().length`, not `id.length`). -/
theorem claim2_counterexample :
    (" " : String) ≠ "" ∧
    ((processFile (fun _ => false) ["h1"] "rules/r.yaml"
      (.ok (JValue.obj [("checks", JValue.arr
        [JValue.obj [("id", JValue.str " ")],
         JValue.obj [("id", JValue.str " ")]])]))).1).filter isDupDiag = [] :=
  ⟨by decide, by decide⟩

/-- Claim C2 (amended: ids must be non-blank, i.e. non-empty after
trimming): when a checks list has exactly two entries carrying the same
valid id, exactly one duplicate-id error is produced, located at the
second occurrence's index; and duplicate detection only prepends the
duplicate error, the rest of the entry's validation proceeding exactly as
with an unseen id. -/
theorem claim2_duplicate_ids (fsE : String → Bool) (sel : List String) (file : String)
    (cs : List JValue) (j k : ℕ) (s : String)
    (hjk : j < k) (hk : k < cs.length)
    (hj : validId (cs.get ⟨j, lt_trans hjk hk⟩) = some s)
    (hk2 : validId (cs.get ⟨k, hk⟩) = some s)
    (huniq : ∀ (m₁ m₂ : ℕ) (h₁ : m₁ < cs.length) (h₂ : m₂ < cs.length), m₁ < m₂ →
      ¬(m₁ = j ∧ m₂ = k) → ∀ t, validId (cs.get ⟨m₁, h₁⟩) = some t →
      validId (cs.get ⟨m₂, h₂⟩) = some t → False) :
    ((processFile fsE sel file (.ok (JValue.obj [("checks", JValue.arr cs)]))).1).filter
        isDupDiag = [mkDupDiag file k s] ∧
    (∀ (i : ℕ) (seen : List String) (c : JValue),
      checkOne fsE sel file i seen c =
        (match validId c with
         | some t => if seen.contains t then [mkDupDiag file i t] else []
         | none => []) ++ checkOne fsE sel file i [] c) := by
  refine ⟨?_, fun i seen c => checkOne_seen fsE sel file i seen c⟩
  rw [processFile_checksOnly]
  have hinv0 : ∀ t : String, ([] : List String).contains t = true ↔
      ∃ (m : ℕ) (hm : m < cs.length), m < 0 ∧ validId (cs.get ⟨m, hm⟩) = some t := by
    intro t
    simp
  have := validateChecks_dup_aux fsE sel file cs j k s hjk hk hj hk2 huniq
    cs.length 0 [] (by omega) hinv0
  rw [List.drop_zero] at this
  rw [this, if_pos (Nat.zero_le k)]

/-- Witness for C2 at a two-entry list with the duplicated id `x`. -/
theorem claim2_witness :
    ((processFile (fun _ => false) ["h1"] "rules/r.yaml"
      (.ok (JValue.obj [("checks", JValue.arr
        [JValue.obj [("id", JValue.str "x")],
         JValue.obj [("id", JValue.str "x")]])]))).1).filter isDupDiag =
      [mkDupDiag "rules/r.yaml" 1 "x"] :=
  (claim2_duplicate_ids (fun _ => false) ["h1"] "rules/r.yaml"
    [JValue.obj [("id", JValue.str "x")], JValue.obj [("id", JValue.str "x")]]
    0 1 "x" (by decide) (by decide) (by decide) (by decide)
    (by
      intro m₁ m₂ h₁ h₂ hlt hne t hv₁ hv₂
      simp only [List.length_cons, List.length_nil] at h₁ h₂
      exact absurd ⟨by omega, by omega⟩ hne)).1

end RulesetSemantics

namespace RulesetSemantics

lemma leadsWith_self_append : ∀ (a b : List Char), leadsWith a (a ++ b) = true
  | [], _ => rfl
  | x :: a, b => by simp [leadsWith, leadsWith_self_append a b]

lemma langWarnOf_own (file r : String) : langWarnOf file (langWarnPrefix file ++ r) = true := by
  unfold langWarnOf
  rw [strData_append]
  exact leadsWith_self_append _ _

lemma weightsWarnOf_own (file r : String) :
    weightsWarnOf file (weightsWarnPrefix file ++ r) = true := by
  unfold weightsWarnOf
  rw [strData_append]
  exact leadsWith_self_append _ _

lemma langWarnOf_weightsPrefix (file r : String) :
    langWarnOf file (weightsWarnPrefix file ++ r) = false := by
  unfold langWarnOf langWarnPrefix weightsWarnPrefix
  simp only [strData_append, List.append_assoc, leadsWith_append_same]
  rfl

lemma weightsWarnOf_langPrefix (file r : String) :
    weightsWarnOf file (langWarnPrefix file ++ r) = false := by
  unfold weightsWarnOf langWarnPrefix weightsWarnPrefix
  simp only [strData_append, List.append_assoc, leadsWith_append_same]
  rfl

lemma languageWarnings_shape {file : String} {lv : Option JValue} {w : Warning}
    (h : w ∈ languageWarnings file lv) : ∃ r, w = langWarnPrefix file ++ r := by
  unfold languageWarnings at h
  split at h
  · dsimp only at h
    rcases List.mem_append.mp h with h | h
    · split at h
      · simp only [List.mem_singleton] at h
        exact ⟨_, h⟩
      · exact absurd h (List.not_mem_nil w)
    · split at h
      · exact absurd h (List.not_mem_nil w)
      · simp only [List.mem_singleton] at h
        exact ⟨_, h⟩
  · exact absurd h (List.not_mem_nil w)
  · simp only [List.mem_singleton] at h
    exact ⟨_, h⟩

lemma weightsWarnings_shape {file : String} {wv : Option JValue} {w : Warning}
    (h : w ∈ (weightsResult file wv).2) : ∃ r, w = weightsWarnPrefix file ++ r := by
  cases wv with
  | none => exact absurd h (List.not_mem_nil w)
  | some v =>
    cases v with
    | obj wfs =>
      unfold weightsResult at h
      dsimp only at h
      split at h
      · split at h
        · exact absurd h (List.not_mem_nil w)
        · dsimp only at h
          simp only [List.mem_singleton] at h
          exact ⟨_, h⟩
      · dsimp only at h
        simp only [List.mem_singleton] at h
        exact ⟨_, h⟩
    | null => exact absurd h (List.not_mem_nil w)
    | bool b => exact absurd h (List.not_mem_nil w)
    | num n => exact absurd h (List.not_mem_nil w)
    | str t => exact absurd h (List.not_mem_nil w)
    | arr l => exact absurd h (List.not_mem_nil w)

lemma weightsResult_obj_errors (file : String) (wfs : List (String × JValue)) :
    (weightsResult file (some (JValue.obj wfs))).1 = [] := by
  unfold weightsResult
  dsimp only
  repeat' split
  all_goals rfl

lemma filter_weightsWarnOf_lang (file : String) (lv : Option JValue) :
    (languageWarnings file lv).filter (weightsWarnOf file) = [] := by
  apply List.filter_eq_nil_iff.mpr
  intro w hw
  obtain ⟨r, hr⟩ := languageWarnings_shape hw
  subst hr
  simp [weightsWarnOf_langPrefix]

lemma filter_langWarnOf_weights (file : String) (wv : Option JValue) :
    ((weightsResult file wv).2).filter (langWarnOf file) = [] := by
  apply List.filter_eq_nil_iff.mpr
  intro w hw
  obtain ⟨r, hr⟩ := weightsWarnings_shape hw
  subst hr
  simp [langWarnOf_weightsPrefix]

end RulesetSemantics

namespace RulesetSemantics

lemma processFile_ok_obj (fsE : String → Bool) (sel : List String) (file : String)
    (dfs : List (String × JValue)) :
    processFile fsE sel file (.ok (JValue.obj dfs)) =
      ((weightsResult file (lookupField dfs "weights")).1 ++
        checksErrors file (lookupField dfs "checks") ++
        validateChecks fsE sel file 0 [] (checksArray (lookupField dfs "checks")),
       languageWarnings file (lookupField dfs "language") ++
        (weightsResult file (lookupField dfs "weights")).2) := rfl

lemma checksErrors_path {file : String} {cv : Option JValue} {d : Diag}
    (h : d ∈ checksErrors file cv) : d.path = "checks" := by
  unfold checksErrors at h
  repeat' split at h
  all_goals simp_all

lemma weightsResult_allnum (file : String) (wfs : List (String × JValue))
    (hnum : ∀ k ∈ REQUIRED_WEIGHTS, ∃ n : JNum, lookupField wfs k = some (JValue.num n)) :
    weightsResult file (some (JValue.obj wfs)) =
      (if approxEquals (weightsSum (JValue.obj wfs)) (JNum.val 1) (1 / 10000) then ([], [])
       else ([], [weightsWarnPrefix file ++ ("sum is " ++ toFixed6 (weightsSum (JValue.obj wfs)) ++
         ", expected ~1.0 (Â±1e-4).")])) := by
  have hmiss : REQUIRED_WEIGHTS.filter (fun k => !isNumV (getField (JValue.obj wfs) k)) = [] := by
    apply List.filter_eq_nil_iff.mpr
    intro k hk
    obtain ⟨n, hn⟩ := hnum k hk
    have hg : getField (JValue.obj wfs) k = some (JValue.num n) := hn
    simp [hg, isNumV]
  unfold weightsResult
  dsimp only
  rw [hmiss]
  rfl

lemma JNum.nan_add (x : JNum) : JNum.add JNum.nan x = JNum.nan := by cases x <;> rfl

lemma JNum.add_nan (x : JNum) : JNum.add x JNum.nan = JNum.nan := by cases x <;> rfl

lemma foldl_weights_nan (w : JValue) :
    ∀ l : List String,
      l.foldl (fun acc k => JNum.add acc (numOf (getField w k))) JNum.nan = JNum.nan
  | [] => rfl
  | k :: l => by
      rw [List.foldl_cons, JNum.nan_add]
      exact foldl_weights_nan w l

lemma weightsSum_nan_of_mem (wfs : List (String × JValue))
    (hnan : ∃ k ∈ REQUIRED_WEIGHTS, lookupField wfs k = some (JValue.num JNum.nan)) :
    weightsSum (JValue.obj wfs) = JNum.nan := by
  have haux : ∀ (l : List String) (acc : JNum),
      (∃ k ∈ l, numOf (getField (JValue.obj wfs) k) = JNum.nan) →
      l.foldl (fun acc k => JNum.add acc (numOf (getField (JValue.obj wfs) k))) acc = JNum.nan := by
    intro l
    induction l with
    | nil =>
      rintro acc ⟨k, hk, _⟩
      exact absurd hk (List.not_mem_nil k)
    | cons a l ih =>
      rintro acc ⟨k, hk, hknan⟩
      rcases List.mem_cons.mp hk with hk | hk
      · subst hk
        rw [List.foldl_cons, hknan, JNum.add_nan]
        exact foldl_weights_nan (JValue.obj wfs) l
      · rw [List.foldl_cons]
        exact ih _ ⟨k, hk, hknan⟩
  obtain ⟨k, hk, hl⟩ := hnan
  unfold weightsSum
  apply haux REQUIRED_WEIGHTS (JNum.val 0)
  refine ⟨k, hk, ?_⟩
  have hg : getField (JValue.obj wfs) k = some (JValue.num JNum.nan) := hl
  rw [hg]
  rfl

end RulesetSemantics

namespace RulesetSemantics

/-- Claim C4: when all five weight dimensions are present with numeric
values, a sum within absolute tolerance 1e-4 of 1.0 yields no
weights-related warning; a sum outside it yields exactly one warning
carrying the sum rendered to six decimal places; and the weights field
contributes zero errors. -/
theorem claim4_weights_tolerance (fsE : String → Bool) (sel : List String) (file : String)
    (dfs wfs : List (String × JValue))
    (hw : lookupField dfs "weights" = some (JValue.obj wfs))
    (hnum : ∀ k ∈ REQUIRED_WEIGHTS, ∃ n : JNum, lookupField wfs k = some (JValue.num n)) :
    (∀ q : ℚ, weightsSum (JValue.obj wfs) = JNum.val q → |q - 1| ≤ 1 / 10000 →
      (processFile fsE sel file (.ok (JValue.obj dfs))).2.filter (weightsWarnOf file) = []) ∧
    (∀ q : ℚ, weightsSum (JValue.obj wfs) = JNum.val q → 1 / 10000 < |q - 1| →
      (processFile fsE sel file (.ok (JValue.obj dfs))).2.filter (weightsWarnOf file) =
        [weightsWarnPrefix file ++ ("sum is " ++ toFixed6 (weightsSum (JValue.obj wfs)) ++
          ", expected ~1.0 (Â±1e-4).")]) ∧
    (processFile fsE sel file (.ok (JValue.obj dfs))).1.filter
      (fun d => d.path == "weights") = [] := by
  refine ⟨?_, ?_, ?_⟩
  · intro q hq hle
    rw [processFile_ok_obj]
    dsimp only
    rw [List.filter_append, filter_weightsWarnOf_lang, hw, weightsResult_allnum file wfs hnum]
    have happ : approxEquals (weightsSum (JValue.obj wfs)) (JNum.val 1) (1 / 10000) = true := by
      rw [hq]
      simp only [approxEquals, decide_eq_true_eq]
      exact hle
    rw [if_pos happ]
    rfl
  · intro q hq hlt
    rw [processFile_ok_obj]
    dsimp only
    rw [List.filter_append, filter_weightsWarnOf_lang, hw, weightsResult_allnum file wfs hnum]
    have happ : approxEquals (weightsSum (JValue.obj wfs)) (JNum.val 1) (1 / 10000) = false := by
      rw [hq]
      simp only [approxEquals, decide_eq_false_iff_not]
      exact not_le.mpr hlt
    rw [if_neg (by rw [happ]; exact Bool.false_ne_true)]
    simp [List.filter_singleton, weightsWarnOf_own]
  · rw [processFile_ok_obj]
    dsimp only
    rw [hw, weightsResult_obj_errors, List.nil_append, List.filter_append]
    have h2 : (checksErrors file (lookupField dfs "checks")).filter
        (fun d => d.path == "weights") = [] :=
      filter_path_eq_nil (fun d hd => by
        rw [checksErrors_path hd]
        decide)
    have h3 : (validateChecks fsE sel file 0 []
        (checksArray (lookupField dfs "checks"))).filter
        (fun d => d.path == "weights") = [] :=
      filter_path_eq_nil (fun d hd => by
        obtain ⟨t, ht⟩ := validateChecks_path hd
        rw [ht]
        exact checksPrefix_ne_weights t)
    rw [h2, h3]
    rfl

/-- Witness for C4 at weights summing to 1.0002 (outside the tolerance):
exactly one warning is produced, naming the sum to six decimal places. -/
theorem claim4_witness :
    (processFile (fun _ => false) ["h1"] "R" (.ok (JValue.obj
      [("weights", JValue.obj
        [("structure", JValue.num (JNum.val (2/10))),
         ("answerability", JValue.num (JNum.val (2/10))),
         ("neutrality", JValue.num (JNum.val (2/10))),
         ("topical_focus", JValue.num (JNum.val (2/10))),
         ("entity_binding", JValue.num (JNum.val (1001/5000)))]),
       ("checks", JValue.arr [])]))).2.filter (weightsWarnOf "R") =
      [weightsWarnPrefix "R" ++ ("sum is " ++ toFixed6 (weightsSum (JValue.obj
        [("structure", JValue.num (JNum.val (2/10))),
         ("answerability", JValue.num (JNum.val (2/10))),
         ("neutrality", JValue.num (JNum.val (2/10))),
         ("topical_focus", JValue.num (JNum.val (2/10))),
         ("entity_binding", JValue.num (JNum.val (1001/5000)))])) ++
        ", expected ~1.0 (Â±1e-4).")] :=
  (claim4_weights_tolerance (fun _ => false) ["h1"] "R" _ _ (by rfl)
    (by
      intro k hk
      fin_cases hk
      · exact ⟨JNum.val (2/10), rfl⟩
      · exact ⟨JNum.val (2/10), rfl⟩
      · exact ⟨JNum.val (2/10), rfl⟩
      · exact ⟨JNum.val (2/10), rfl⟩
      · exact ⟨JNum.val (1001/5000), rfl⟩)).2.1 (5001/5000)
    (by
      simp [weightsSum, REQUIRED_WEIGHTS, getField, lookupField, numOf, JNum.add]
      norm_num)
    (by
      rw [show (5001/5000 : ℚ) - 1 = 1/5000 by norm_num, abs_of_pos (by norm_num)]
      norm_num)

/-- Claim C10: when all five weight keys are present with number-typed
values but at least one is `NaN`, the missing-keys warning does not fire
(`NaN` passes the type test), the sum is `NaN`, and the tolerance warning
fires reporting `NaN` as the sum. -/
theorem claim10_nan_weights (fsE : String → Bool) (sel : List String) (file : String)
    (dfs wfs : List (String × JValue))
    (hw : lookupField dfs "weights" = some (JValue.obj wfs))
    (hnum : ∀ k ∈ REQUIRED_WEIGHTS, ∃ n : JNum, lookupField wfs k = some (JValue.num n))
    (hnan : ∃ k ∈ REQUIRED_WEIGHTS, lookupField wfs k = some (JValue.num JNum.nan)) :
    weightsSum (JValue.obj wfs) = JNum.nan ∧
    (processFile fsE sel file (.ok (JValue.obj dfs))).2.filter (weightsWarnOf file) =
      [weightsWarnPrefix file ++ "sum is NaN, expected ~1.0 (Â±1e-4)."] := by
  have hsum := weightsSum_nan_of_mem wfs hnan
  refine ⟨hsum, ?_⟩
  rw [processFile_ok_obj]
  dsimp only
  rw [List.filter_append, filter_weightsWarnOf_lang, hw, weightsResult_allnum file wfs hnum,
    hsum]
  have happ : approxEquals JNum.nan (JNum.val 1) (1 / 10000) = false := rfl
  rw [if_neg (fun hc => Bool.false_ne_true (happ ▸ hc))]
  have hstr : ("sum is " ++ toFixed6 JNum.nan ++ ", expected ~1.0 (Â±1e-4).") =
      "sum is NaN, expected ~1.0 (Â±1e-4)." := by decide
  rw [hstr]
  simp [List.filter_singleton, weightsWarnOf_own]

/-- Witness for C10 with `structure: NaN` and the rest `0.25`. -/
theorem claim10_witness :
    weightsSum (JValue.obj
      [("structure", JValue.num JNum.nan),
       ("answerability", JValue.num (JNum.val (1/4))),
       ("neutrality", JValue.num (JNum.val (1/4))),
       ("topical_focus", JValue.num (JNum.val (1/4))),
       ("entity_binding", JValue.num (JNum.val (1/4)))]) = JNum.nan ∧
    (processFile (fun _ => false) ["h1"] "R" (.ok (JValue.obj
      [("weights", JValue.obj
        [("structure", JValue.num JNum.nan),
         ("answerability", JValue.num (JNum.val (1/4))),
         ("neutrality", JValue.num (JNum.val (1/4))),
         ("topical_focus", JValue.num (JNum.val (1/4))),
         ("entity_binding", JValue.num (JNum.val (1/4)))]),
       ("checks", JValue.arr [])]))).2.filter (weightsWarnOf "R") =
      [weightsWarnPrefix "R" ++ "sum is NaN, expected ~1.0 (Â±1e-4)."] :=
  claim10_nan_weights (fun _ => false) ["h1"] "R" _ _ rfl
    (by
      intro k hk
      fin_cases hk
      · exact ⟨JNum.nan, rfl⟩
      · exact ⟨JNum.val (1/4), rfl⟩
      · exact ⟨JNum.val (1/4), rfl⟩
      · exact ⟨JNum.val (1/4), rfl⟩
      · exact ⟨JNum.val (1/4), rfl⟩)
    ⟨"structure", by decide, rfl⟩

end RulesetSemantics

namespace RulesetSemantics

/-- Counterexample to C5 as stated: for `language: "DE"` the claim's
condition holds (the trimmed-and-lowercased form `de` differs from both
the original `DE` and the original uppercased `DE`), yet the validator
emits no normalization warning — the source compares the original against
the normalized form and the normalized form uppercased, not against the
original uppercased. -/
theorem claim5_counterexample :
    (jsToLower (jsTrim "DE") ≠ "DE" ∧ jsToLower (jsTrim "DE") ≠ jsToUpper "DE") ∧
    (processFile (fun _ => false) ["h1"] "R"
      (.ok (JValue.obj [("language", JValue.str "DE"), ("checks", JValue.arr [])]))).2.filter
        (langWarnOf "R") = [] :=
  ⟨by decide, by decide⟩

/-- Claim C5 (amended: the normalization warning fires exactly when the
value differs from both its trimmed-lowercased form and that form
uppercased, and the pattern is tested on the trimmed value): for a string
`language` the two warnings are produced under exactly those conditions;
for a present non-string `language` exactly one warning is produced
instead. -/
theorem claim5_language (fsE : String → Bool) (sel : List String) (file : String)
    (dfs : List (String × JValue)) (lv : JValue)
    (hl : lookupField dfs "language" = some lv) :
    (∀ lang : String, lv = JValue.str lang →
      (processFile fsE sel file (.ok (JValue.obj dfs))).2.filter (langWarnOf file) =
        (if lang ≠ jsToLower (jsTrim lang) ∧ lang ≠ jsToUpper (jsToLower (jsTrim lang)) then
          [langWarnPrefix file ++ (sq ++ lang ++ sq ++ " unusual formatting; consider " ++
            sq ++ "de" ++ sq ++ " or " ++ sq ++ "en" ++ sq ++ ".")]
        else []) ++
        (if langTagMatches (jsTrim lang) then []
        else [langWarnPrefix file ++ (sq ++ lang ++ sq ++ " doesn" ++ sq ++
          "t look like a BCP-47 code.")])) ∧
    ((∀ lang : String, lv ≠ JValue.str lang) →
      (processFile fsE sel file (.ok (JValue.obj dfs))).2.filter (langWarnOf file) =
        [langWarnPrefix file ++ "should be a string (e.g., \"de\")."]) := by
  have hfilter : ∀ lv2 : Option JValue,
      (languageWarnings file lv2).filter (langWarnOf file) = languageWarnings file lv2 := by
    intro lv2
    apply List.filter_eq_self.mpr
    intro w hw
    obtain ⟨r, hr⟩ := languageWarnings_shape hw
    subst hr
    exact langWarnOf_own file r
  constructor
  · intro lang hlang
    subst hlang
    rw [processFile_ok_obj]
    dsimp only
    rw [List.filter_append, filter_langWarnOf_weights, List.append_nil, hl, hfilter]
    rfl
  · intro hns
    rw [processFile_ok_obj]
    dsimp only
    rw [List.filter_append, filter_langWarnOf_weights, List.append_nil, hl, hfilter]
    cases lv with
    | str s2 => exact absurd rfl (hns s2)
    | null => rfl
    | bool b => rfl
    | num n => rfl
    | arr l => rfl
    | obj o => rfl

/-- Witness for C5 at `language: "De"`: the normalization warning fires
(`De` differs from `de` and from `DE`), the pattern warning does not. -/
theorem claim5_witness :
    (processFile (fun _ => false) ["h1"] "R"
      (.ok (JValue.obj [("language", JValue.str "De"), ("checks", JValue.arr [])]))).2.filter
        (langWarnOf "R") =
      (if ("De" : String) ≠ jsToLower (jsTrim "De") ∧
          ("De" : String) ≠ jsToUpper (jsToLower (jsTrim "De")) then
        [langWarnPrefix "R" ++ (sq ++ "De" ++ sq ++ " unusual formatting; consider " ++
          sq ++ "de" ++ sq ++ " or " ++ sq ++ "en" ++ sq ++ ".")]
      else []) ++
      (if langTagMatches (jsTrim "De") then []
      else [langWarnPrefix "R" ++ (sq ++ "De" ++ sq ++ " doesn" ++ sq ++
        "t look like a BCP-47 code.")]) :=
  (claim5_language (fun _ => false) ["h1"] "R"
    [("language", JValue.str "De"), ("checks", JValue.arr [])] (JValue.str "De") rfl).1 "De" rfl

end RulesetSemantics

namespace RulesetSemantics

lemma filter_path_self {p : String} {l : List Diag} (h : ∀ d ∈ l, d.path = p) :
    l.filter (fun d => d.path == p) = l :=
  List.filter_eq_self.mpr (fun d hd => by simp [h d hd])

lemma ruleErrors_path_mem {fsE : String → Bool} {sel : List String} {file base : String}
    {rv : Option JValue} {d : Diag} (h : d ∈ ruleErrors fsE sel file base rv) :
    d.path = base ++ ".rule" ∨ d.path = base ++ ".rule.op" ∨
    d.path = base ++ ".rule.selector" ∨ d.path = base ++ ".rule.min" ∨
    d.path = base ++ ".rule.max" ∨ d.path = base ++ ".rule.terms" ∨
    d.path = base ++ ".rule.maxDensity" ∨ d.path = base ++ ".rule.promptRef" ∨
    d.path = base ++ ".rule.introBlocks" := by
  unfold ruleErrors at h
  split at h
  · dsimp only at h
    split at h
    · split at h
      · simp only [List.mem_append] at h
        rcases h with (h | h) | h
        · split at h
          · simp only [countErrors, List.mem_append] at h
            rcases h with ((h | h) | h) | h
            · exact Or.inr (Or.inr (Or.inl (selectorErrors_path h)))
            · exact Or.inr (Or.inr (Or.inr (Or.inl (minErrors_path h))))
            · exact Or.inr (Or.inr (Or.inr (Or.inr (Or.inl (maxErrors_path h)))))
            · exact Or.inl (rangeErrors_path h)
          · exact absurd h (List.not_mem_nil d)
        · split at h
          · simp only [termDensityErrors, List.mem_append] at h
            rcases h with h | h
            · exact Or.inr (Or.inr (Or.inr (Or.inr (Or.inr (Or.inl (termsErrors_path h))))))
            · exact Or.inr (Or.inr (Or.inr (Or.inr (Or.inr (Or.inr (Or.inl
                (maxDensityErrors_path h)))))))
          · exact absurd h (List.not_mem_nil d)
        · split at h
          · simp only [llmErrors, List.mem_append] at h
            rcases h with h | h
            · exact Or.inr (Or.inr (Or.inr (Or.inr (Or.inr (Or.inr (Or.inr (Or.inl
                (promptRefErrors_path h))))))))
            · exact Or.inr (Or.inr (Or.inr (Or.inr (Or.inr (Or.inr (Or.inr (Or.inr
                (introBlocksErrors_path h))))))))
          · exact absurd h (List.not_mem_nil d)
      · simp only [List.mem_singleton] at h
        subst h
        exact Or.inr (Or.inl rfl)
    · simp only [List.mem_singleton] at h
      subst h
      exact Or.inr (Or.inl rfl)
  · simp only [List.mem_singleton] at h
    subst h
    exact Or.inl rfl

lemma ruleErrors_path_ne_penalty {fsE : String → Bool} {sel : List String} {file base : String}
    {rv : Option JValue} {d : Diag} (h : d ∈ ruleErrors fsE sel file base rv) :
    d.path ≠ base ++ ".penalty" := by
  rcases ruleErrors_path_mem h with h1 | h1 | h1 | h1 | h1 | h1 | h1 | h1 | h1
  all_goals rw [h1]
  all_goals exact strAppend_ne_of_ne base (by decide)

lemma checkOne_filter_penalty (fsE : String → Bool) (sel : List String) (file : String)
    (i : ℕ) (seen : List String) (cfs : List (String × JValue)) :
    (checkOne fsE sel file i seen (JValue.obj cfs)).filter
      (fun d => d.path == basePath i ++ ".penalty") =
      penaltyErrors file (basePath i) (lookupField cfs "penalty") := by
  unfold checkOne
  dsimp only
  rw [List.filter_append, List.filter_append, List.filter_append, List.filter_append,
    List.filter_append]
  rw [filter_path_eq_nil (fun d hd => by
    rw [idErrors_path hd]; exact strAppend_ne_of_ne _ (by decide))]
  rw [filter_path_eq_nil (fun d hd => by
    rw [severityErrors_path hd]; exact strAppend_ne_of_ne _ (by decide))]
  rw [filter_path_eq_nil (fun d hd => by
    rw [dimensionErrors_path hd]; exact strAppend_ne_of_ne _ (by decide))]
  rw [filter_path_self (fun d hd => penaltyErrors_path hd)]
  rw [filter_path_eq_nil (fun d hd => by
    rw [messageErrors_path hd]; exact strAppend_ne_of_ne _ (by decide))]
  rw [filter_path_eq_nil (fun d hd => ruleErrors_path_ne_penalty hd)]
  simp only [List.append_nil, List.nil_append]
  rfl

lemma checkOne_eq_count (fsE : String → Bool) (sel : List String) (file : String)
    (i : ℕ) (seen : List String) (cfs rfs : List (String × JValue))
    (hrule : lookupField cfs "rule" = some (JValue.obj rfs))
    (hop : lookupField rfs "op" = some (JValue.str "count")) :
    checkOne fsE sel file i seen (JValue.obj cfs) =
      idErrors file (basePath i) seen (lookupField cfs "id") ++
      severityErrors file (basePath i) (lookupField cfs "severity") ++
      dimensionErrors file (basePath i) (lookupField cfs "dimension") ++
      penaltyErrors file (basePath i) (lookupField cfs "penalty") ++
      messageErrors file (basePath i) (lookupField cfs "message") ++
      countErrors sel file (basePath i) (lookupField rfs "selector") (lookupField rfs "min")
        (lookupField rfs "max") := by
  unfold checkOne
  dsimp only
  have hg : getField (JValue.obj cfs) "rule" = some (JValue.obj rfs) := hrule
  rw [hg]
  unfold ruleErrors
  dsimp only
  have hg2 : getField (JValue.obj rfs) "op" = some (JValue.str "count") := hop
  rw [hg2]
  dsimp only
  rw [if_pos (show ALLOWED_OPS.contains "count" = true by decide)]
  rw [if_pos rfl, if_neg (show ¬("count" : String) = "term_density" by decide),
    if_neg (show ¬("count" : String) = "llm" by decide)]
  simp only [List.append_nil, List.nil_append]
  rfl

lemma checkOne_eq_llm (fsE : String → Bool) (sel : List String) (file : String)
    (i : ℕ) (seen : List String) (cfs rfs : List (String × JValue))
    (hrule : lookupField cfs "rule" = some (JValue.obj rfs))
    (hop : lookupField rfs "op" = some (JValue.str "llm")) :
    checkOne fsE sel file i seen (JValue.obj cfs) =
      idErrors file (basePath i) seen (lookupField cfs "id") ++
      severityErrors file (basePath i) (lookupField cfs "severity") ++
      dimensionErrors file (basePath i) (lookupField cfs "dimension") ++
      penaltyErrors file (basePath i) (lookupField cfs "penalty") ++
      messageErrors file (basePath i) (lookupField cfs "message") ++
      (promptRefErrors fsE file (basePath i) (lookupField rfs "promptRef") ++
       introBlocksErrors file (basePath i) (lookupField rfs "introBlocks")) := by
  unfold checkOne
  dsimp only
  have hg : getField (JValue.obj cfs) "rule" = some (JValue.obj rfs) := hrule
  rw [hg]
  unfold ruleErrors
  dsimp only
  have hg2 : getField (JValue.obj rfs) "op" = some (JValue.str "llm") := hop
  rw [hg2]
  dsimp only
  rw [if_pos (show ALLOWED_OPS.contains "llm" = true by decide)]
  rw [if_neg (show ¬("llm" : String) = "count" by decide),
    if_neg (show ¬("llm" : String) = "term_density" by decide), if_pos rfl]
  simp only [llmErrors, List.append_nil, List.nil_append]
  rfl

end RulesetSemantics

namespace RulesetSemantics

lemma minErrors_eq_nil_iff (file base : String) (v : Option JValue) :
    minErrors file base v = [] ↔
      ∃ q : ℚ, v = some (JValue.num (JNum.val q)) ∧ q.den = 1 ∧ 0 ≤ q := by
  unfold minErrors
  repeat' split
  all_goals simp_all

lemma minErrors_cases (file base : String) (v : Option JValue) :
    minErrors file base v = [] ∨
    minErrors file base v = [⟨file, base ++ ".rule.min", "min must be an integer >= 0."⟩] := by
  unfold minErrors
  repeat' split
  all_goals simp

lemma maxErrors_eq_nil_iff (file base : String) (v : Option JValue) :
    maxErrors file base v = [] ↔
      ∃ q : ℚ, v = some (JValue.num (JNum.val q)) ∧ q.den = 1 ∧ 0 ≤ q := by
  unfold maxErrors
  repeat' split
  all_goals simp_all

lemma maxErrors_cases (file base : String) (v : Option JValue) :
    maxErrors file base v = [] ∨
    maxErrors file base v = [⟨file, base ++ ".rule.max", "max must be an integer >= 0."⟩] := by
  unfold maxErrors
  repeat' split
  all_goals simp

lemma selectorErrors_eq_nil_iff (sel : List String) (file base : String) (v : Option JValue) :
    selectorErrors sel file base v = [] ↔
      ∃ s : String, v = some (JValue.str s) ∧ (jsTrim s).length ≠ 0 ∧
        sel.contains s = true := by
  unfold selectorErrors
  repeat' split
  all_goals simp_all

lemma rangeErrors_eq_nil_iff (file base : String) (mv xv : Option JValue) :
    rangeErrors file base mv xv = [] ↔
      ¬ ∃ qm qx : ℚ, mv = some (JValue.num (JNum.val qm)) ∧
        xv = some (JValue.num (JNum.val qx)) ∧ qm.den = 1 ∧ qx.den = 1 ∧ qx < qm := by
  unfold rangeErrors
  repeat' split
  all_goals simp_all

lemma rangeErrors_eq_of (file base : String) (mv xv : Option JValue) (qm qx : ℚ)
    (hm : mv = some (JValue.num (JNum.val qm))) (hx : xv = some (JValue.num (JNum.val qx)))
    (hdm : qm.den = 1) (hdx : qx.den = 1) (hlt : qx < qm) :
    rangeErrors file base mv xv =
      [⟨file, base ++ ".rule", "min (" ++ toString qm.num ++ ") must be <= max (" ++
        toString qx.num ++ ")."⟩] := by
  subst hm hx
  unfold rangeErrors
  dsimp only
  rw [if_pos ⟨hdm, hdx, hlt⟩]

lemma promptRefErrors_invalid (fsE : String → Bool) (file base : String) (refv : Option JValue)
    (h : ¬ ∃ s : String, refv = some (JValue.str s) ∧ (jsTrim s).length ≠ 0) :
    promptRefErrors fsE file base refv =
      [⟨file, base ++ ".rule.promptRef", "promptRef is required for op=llm."⟩] := by
  unfold promptRefErrors
  repeat' split
  all_goals simp_all

lemma promptRefErrors_notfound (fsE : String → Bool) (file base : String) (s : String)
    (ht : (jsTrim s).length ≠ 0) (hfs : fsE s = false) :
    promptRefErrors fsE file base (some (JValue.str s)) =
      [⟨file, base ++ ".rule.promptRef", "file not found " ++ sq ++ s ++ sq⟩] := by
  unfold promptRefErrors
  dsimp only
  rw [if_neg ht, if_neg (by rw [hfs]; exact Bool.false_ne_true)]

lemma promptRefErrors_found (fsE : String → Bool) (file base : String) (s : String)
    (ht : (jsTrim s).length ≠ 0) (hfs : fsE s = true) :
    promptRefErrors fsE file base (some (JValue.str s)) = [] := by
  unfold promptRefErrors
  dsimp only
  rw [if_neg ht, if_pos hfs]

lemma introBlocksErrors_some_iff (file base : String) (v : JValue) :
    introBlocksErrors file base (some v) = [] ↔
      ∃ q : ℚ, v = JValue.num (JNum.val q) ∧ q.den = 1 ∧ 1 ≤ q := by
  unfold introBlocksErrors
  repeat' split
  all_goals simp_all

end RulesetSemantics

namespace RulesetSemantics

lemma checkOne_count_filter_min (fsE : String → Bool) (sel : List String) (file : String)
    (i : ℕ) (seen : List String) (cfs rfs : List (String × JValue))
    (hrule : lookupField cfs "rule" = some (JValue.obj rfs))
    (hop : lookupField rfs "op" = some (JValue.str "count")) :
    (checkOne fsE sel file i seen (JValue.obj cfs)).filter
      (fun d => d.path == basePath i ++ ".rule.min") =
      minErrors file (basePath i) (lookupField rfs "min") := by
  rw [checkOne_eq_count fsE sel file i seen cfs rfs hrule hop]
  simp only [countErrors, List.filter_append]
  rw [filter_path_eq_nil (fun d hd => by
    rw [idErrors_path hd]; exact strAppend_ne_of_ne _ (by decide))]
  rw [filter_path_eq_nil (fun d hd => by
    rw [severityErrors_path hd]; exact strAppend_ne_of_ne _ (by decide))]
  rw [filter_path_eq_nil (fun d hd => by
    rw [dimensionErrors_path hd]; exact strAppend_ne_of_ne _ (by decide))]
  rw [filter_path_eq_nil (fun d hd => by
    rw [penaltyErrors_path hd]; exact strAppend_ne_of_ne _ (by decide))]
  rw [filter_path_eq_nil (fun d hd => by
    rw [messageErrors_path hd]; exact strAppend_ne_of_ne _ (by decide))]
  rw [filter_path_eq_nil (fun d hd => by
    rw [selectorErrors_path hd]; exact strAppend_ne_of_ne _ (by decide))]
  rw [filter_path_self (fun d hd => minErrors_path hd)]
  rw [filter_path_eq_nil (fun d hd => by
    rw [maxErrors_path hd]; exact strAppend_ne_of_ne _ (by decide))]
  rw [filter_path_eq_nil (fun d hd => by
    rw [rangeErrors_path hd]; exact strAppend_ne_of_ne _ (by decide))]
  simp

lemma checkOne_count_filter_max (fsE : String → Bool) (sel : List String) (file : String)
    (i : ℕ) (seen : List String) (cfs rfs : List (String × JValue))
    (hrule : lookupField cfs "rule" = some (JValue.obj rfs))
    (hop : lookupField rfs "op" = some (JValue.str "count")) :
    (checkOne fsE sel file i seen (JValue.obj cfs)).filter
      (fun d => d.path == basePath i ++ ".rule.max") =
      maxErrors file (basePath i) (lookupField rfs "max") := by
  rw [checkOne_eq_count fsE sel file i seen cfs rfs hrule hop]
  simp only [countErrors, List.filter_append]
  rw [filter_path_eq_nil (fun d hd => by
    rw [idErrors_path hd]; exact strAppend_ne_of_ne _ (by decide))]
  rw [filter_path_eq_nil (fun d hd => by
    rw [severityErrors_path hd]; exact strAppend_ne_of_ne _ (by decide))]
  rw [filter_path_eq_nil (fun d hd => by
    rw [dimensionErrors_path hd]; exact strAppend_ne_of_ne _ (by decide))]
  rw [filter_path_eq_nil (fun d hd => by
    rw [penaltyErrors_path hd]; exact strAppend_ne_of_ne _ (by decide))]
  rw [filter_path_eq_nil (fun d hd => by
    rw [messageErrors_path hd]; exact strAppend_ne_of_ne _ (by decide))]
  rw [filter_path_eq_nil (fun d hd => by
    rw [selectorErrors_path hd]; exact strAppend_ne_of_ne _ (by decide))]
  rw [filter_path_eq_nil (fun d hd => by
    rw [minErrors_path hd]; exact strAppend_ne_of_ne _ (by decide))]
  rw [filter_path_self (fun d hd => maxErrors_path hd)]
  rw [filter_path_eq_nil (fun d hd => by
    rw [rangeErrors_path hd]; exact strAppend_ne_of_ne _ (by decide))]
  simp

lemma checkOne_count_filter_range (fsE : String → Bool) (sel : List String) (file : String)
    (i : ℕ) (seen : List String) (cfs rfs : List (String × JValue))
    (hrule : lookupField cfs "rule" = some (JValue.obj rfs))
    (hop : lookupField rfs "op" = some (JValue.str "count")) :
    (checkOne fsE sel file i seen (JValue.obj cfs)).filter
      (fun d => d.path == basePath i ++ ".rule") =
      rangeErrors file (basePath i) (lookupField rfs "min") (lookupField rfs "max") := by
  rw [checkOne_eq_count fsE sel file i seen cfs rfs hrule hop]
  simp only [countErrors, List.filter_append]
  rw [filter_path_eq_nil (fun d hd => by
    rw [idErrors_path hd]; exact strAppend_ne_of_ne _ (by decide))]
  rw [filter_path_eq_nil (fun d hd => by
    rw [severityErrors_path hd]; exact strAppend_ne_of_ne _ (by decide))]
  rw [filter_path_eq_nil (fun d hd => by
    rw [dimensionErrors_path hd]; exact strAppend_ne_of_ne _ (by decide))]
  rw [filter_path_eq_nil (fun d hd => by
    rw [penaltyErrors_path hd]; exact strAppend_ne_of_ne _ (by decide))]
  rw [filter_path_eq_nil (fun d hd => by
    rw [messageErrors_path hd]; exact strAppend_ne_of_ne _ (by decide))]
  rw [filter_path_eq_nil (fun d hd => by
    rw [selectorErrors_path hd]; exact strAppend_ne_of_ne _ (by decide))]
  rw [filter_path_eq_nil (fun d hd => by
    rw [minErrors_path hd]; exact strAppend_ne_of_ne _ (by decide))]
  rw [filter_path_eq_nil (fun d hd => by
    rw [maxErrors_path hd]; exact strAppend_ne_of_ne _ (by decide))]
  rw [filter_path_self (fun d hd => rangeErrors_path hd)]
  simp

lemma checkOne_count_filter_selector (fsE : String → Bool) (sel : List String) (file : String)
    (i : ℕ) (seen : List String) (cfs rfs : List (String × JValue))
    (hrule : lookupField cfs "rule" = some (JValue.obj rfs))
    (hop : lookupField rfs "op" = some (JValue.str "count")) :
    (checkOne fsE sel file i seen (JValue.obj cfs)).filter
      (fun d => d.path == basePath i ++ ".rule.selector") =
      selectorErrors sel file (basePath i) (lookupField rfs "selector") := by
  rw [checkOne_eq_count fsE sel file i seen cfs rfs hrule hop]
  simp only [countErrors, List.filter_append]
  rw [filter_path_eq_nil (fun d hd => by
    rw [idErrors_path hd]; exact strAppend_ne_of_ne _ (by decide))]
  rw [filter_path_eq_nil (fun d hd => by
    rw [severityErrors_path hd]; exact strAppend_ne_of_ne _ (by decide))]
  rw [filter_path_eq_nil (fun d hd => by
    rw [dimensionErrors_path hd]; exact strAppend_ne_of_ne _ (by decide))]
  rw [filter_path_eq_nil (fun d hd => by
    rw [penaltyErrors_path hd]; exact strAppend_ne_of_ne _ (by decide))]
  rw [filter_path_eq_nil (fun d hd => by
    rw [messageErrors_path hd]; exact strAppend_ne_of_ne _ (by decide))]
  rw [filter_path_self (fun d hd => selectorErrors_path hd)]
  rw [filter_path_eq_nil (fun d hd => by
    rw [minErrors_path hd]; exact strAppend_ne_of_ne _ (by decide))]
  rw [filter_path_eq_nil (fun d hd => by
    rw [maxErrors_path hd]; exact strAppend_ne_of_ne _ (by decide))]
  rw [filter_path_eq_nil (fun d hd => by
    rw [rangeErrors_path hd]; exact strAppend_ne_of_ne _ (by decide))]
  simp

end RulesetSemantics

namespace RulesetSemantics

lemma penaltyErrors_num_iff (file base : String) (v : Option JValue) :
    penaltyErrors file base v =
      [⟨file, base ++ ".penalty", "penalty must be a number."⟩] ↔
      ¬ ∃ q : ℚ, v = some (JValue.num (JNum.val q)) := by
  unfold penaltyErrors
  repeat' split
  all_goals simp_all

lemma penaltyErrors_val (file base : String) (q : ℚ) :
    penaltyErrors file base (some (JValue.num (JNum.val q))) =
      if q < 0 then [⟨file, base ++ ".penalty", "penalty must be >= 0."⟩] else [] := rfl

lemma penaltyErrors_len (file base : String) (v : Option JValue) :
    (penaltyErrors file base v).length ≤ 1 := by
  unfold penaltyErrors
  repeat' split
  all_goals simp

end RulesetSemantics

namespace RulesetSemantics

/-- Claim C3: for a check with `rule.op = count`, `min` and `max` must each
independently be non-negative integers (one error per violated field); the
range condition `min <= max` is checked whenever both are integers
regardless of sign, as a third independent error; and the selector check
is independent of all three — the four checks are additive and never
short-circuit each other. -/
theorem claim3_count_minmax (fsE : String → Bool) (sel : List String) (file : String)
    (i : ℕ) (seen : List String) (cfs rfs : List (String × JValue))
    (hrule : lookupField cfs "rule" = some (JValue.obj rfs))
    (hop : lookupField rfs "op" = some (JValue.str "count")) :
    ((checkOne fsE sel file i seen (JValue.obj cfs)).filter
        (fun d => d.path == basePath i ++ ".rule.min") = [] ↔
      ∃ q : ℚ, lookupField rfs "min" = some (JValue.num (JNum.val q)) ∧ q.den = 1 ∧ 0 ≤ q) ∧
    ((checkOne fsE sel file i seen (JValue.obj cfs)).filter
        (fun d => d.path == basePath i ++ ".rule.min") =
        [⟨file, basePath i ++ ".rule.min", "min must be an integer >= 0."⟩] ↔
      ¬ ∃ q : ℚ, lookupField rfs "min" = some (JValue.num (JNum.val q)) ∧ q.den = 1 ∧ 0 ≤ q) ∧
    ((checkOne fsE sel file i seen (JValue.obj cfs)).filter
        (fun d => d.path == basePath i ++ ".rule.max") = [] ↔
      ∃ q : ℚ, lookupField rfs "max" = some (JValue.num (JNum.val q)) ∧ q.den = 1 ∧ 0 ≤ q) ∧
    ((checkOne fsE sel file i seen (JValue.obj cfs)).filter
        (fun d => d.path == basePath i ++ ".rule.max") =
        [⟨file, basePath i ++ ".rule.max", "max must be an integer >= 0."⟩] ↔
      ¬ ∃ q : ℚ, lookupField rfs "max" = some (JValue.num (JNum.val q)) ∧ q.den = 1 ∧ 0 ≤ q) ∧
    ((checkOne fsE sel file i seen (JValue.obj cfs)).filter
        (fun d => d.path == basePath i ++ ".rule") = [] ↔
      ¬ ∃ qm qx : ℚ, lookupField rfs "min" = some (JValue.num (JNum.val qm)) ∧
        lookupField rfs "max" = some (JValue.num (JNum.val qx)) ∧
        qm.den = 1 ∧ qx.den = 1 ∧ qx < qm) ∧
    (∀ qm qx : ℚ, lookupField rfs "min" = some (JValue.num (JNum.val qm)) →
      lookupField rfs "max" = some (JValue.num (JNum.val qx)) →
      qm.den = 1 → qx.den = 1 → qx < qm →
      (checkOne fsE sel file i seen (JValue.obj cfs)).filter
        (fun d => d.path == basePath i ++ ".rule") =
        [⟨file, basePath i ++ ".rule", "min (" ++ toString qm.num ++ ") must be <= max (" ++
          toString qx.num ++ ")."⟩]) ∧
    ((checkOne fsE sel file i seen (JValue.obj cfs)).filter
        (fun d => d.path == basePath i ++ ".rule.selector") = [] ↔
      ∃ s : String, lookupField rfs "selector" = some (JValue.str s) ∧
        (jsTrim s).length ≠ 0 ∧ sel.contains s = true) := by
  have hmin := checkOne_count_filter_min fsE sel file i seen cfs rfs hrule hop
  have hmax := checkOne_count_filter_max fsE sel file i seen cfs rfs hrule hop
  have hrange := checkOne_count_filter_range fsE sel file i seen cfs rfs hrule hop
  have hsel := checkOne_count_filter_selector fsE sel file i seen cfs rfs hrule hop
  refine ⟨?_, ?_, ?_, ?_, ?_, ?_, ?_⟩
  · rw [hmin]
    exact minErrors_eq_nil_iff file (basePath i) (lookupField rfs "min")
  · rw [hmin]
    constructor
    · intro h hex
      rw [(minErrors_eq_nil_iff file (basePath i) (lookupField rfs "min")).mpr hex] at h
      exact List.cons_ne_nil _ _ h.symm
    · intro h
      rcases minErrors_cases file (basePath i) (lookupField rfs "min") with hc | hc
      · exact absurd ((minErrors_eq_nil_iff file (basePath i)
          (lookupField rfs "min")).mp hc) h
      · exact hc
  · rw [hmax]
    exact maxErrors_eq_nil_iff file (basePath i) (lookupField rfs "max")
  · rw [hmax]
    constructor
    · intro h hex
      rw [(maxErrors_eq_nil_iff file (basePath i) (lookupField rfs "max")).mpr hex] at h
      exact List.cons_ne_nil _ _ h.symm
    · intro h
      rcases maxErrors_cases file (basePath i) (lookupField rfs "max") with hc | hc
      · exact absurd ((maxErrors_eq_nil_iff file (basePath i)
          (lookupField rfs "max")).mp hc) h
      · exact hc
  · rw [hrange]
    exact rangeErrors_eq_nil_iff file (basePath i) (lookupField rfs "min")
      (lookupField rfs "max")
  · intro qm qx hm hx hdm hdx hlt
    rw [hrange]
    exact rangeErrors_eq_of file (basePath i) _ _ qm qx hm hx hdm hdx hlt
  · rw [hsel]
    exact selectorErrors_eq_nil_iff sel file (basePath i) (lookupField rfs "selector")

/-- Witness for C3 at `min = 5`, `max = 3`, valid selector `h1`: only the
range error fires among the four rule checks. -/
theorem claim3_witness :
    ((checkOne (fun _ => false) ["h1"] "R" 0 [] (JValue.obj
      [("rule", JValue.obj [("op", JValue.str "count"), ("selector", JValue.str "h1"),
        ("min", JValue.num (JNum.val 5)), ("max", JValue.num (JNum.val 3))])])).filter
      (fun d => d.path == basePath 0 ++ ".rule") =
      [⟨"R", basePath 0 ++ ".rule", "min (" ++ toString (5 : ℚ).num ++ ") must be <= max (" ++
        toString (3 : ℚ).num ++ ")."⟩]) ∧
    ((checkOne (fun _ => false) ["h1"] "R" 0 [] (JValue.obj
      [("rule", JValue.obj [("op", JValue.str "count"), ("selector", JValue.str "h1"),
        ("min", JValue.num (JNum.val 5)), ("max", JValue.num (JNum.val 3))])])).filter
      (fun d => d.path == basePath 0 ++ ".rule.min") = []) ∧
    ((checkOne (fun _ => false) ["h1"] "R" 0 [] (JValue.obj
      [("rule", JValue.obj [("op", JValue.str "count"), ("selector", JValue.str "h1"),
        ("min", JValue.num (JNum.val 5)), ("max", JValue.num (JNum.val 3))])])).filter
      (fun d => d.path == basePath 0 ++ ".rule.max") = []) ∧
    ((checkOne (fun _ => false) ["h1"] "R" 0 [] (JValue.obj
      [("rule", JValue.obj [("op", JValue.str "count"), ("selector", JValue.str "h1"),
        ("min", JValue.num (JNum.val 5)), ("max", JValue.num (JNum.val 3))])])).filter
      (fun d => d.path == basePath 0 ++ ".rule.selector") = []) := by
  have H := claim3_count_minmax (fun _ => false) ["h1"] "R" 0 []
    [("rule", JValue.obj [("op", JValue.str "count"), ("selector", JValue.str "h1"),
      ("min", JValue.num (JNum.val 5)), ("max", JValue.num (JNum.val 3))])]
    [("op", JValue.str "count"), ("selector", JValue.str "h1"),
      ("min", JValue.num (JNum.val 5)), ("max", JValue.num (JNum.val 3))] rfl rfl
  refine ⟨?_, ?_, ?_, ?_⟩
  · exact H.2.2.2.2.2.1 5 3 rfl rfl (by norm_num) (by norm_num) (by norm_num)
  · exact H.1.mpr ⟨5, rfl, by norm_num, by norm_num⟩
  · exact H.2.2.1.mpr ⟨3, rfl, by norm_num, by norm_num⟩
  · exact H.2.2.2.2.2.2.mpr ⟨"h1", rfl, by decide, by decide⟩

end RulesetSemantics

namespace RulesetSemantics

/-- Counterexample to C6 as stated: at `penalty = NaN` both of the claim's
conditions are violated (`NaN` is not a non-NaN number, and `NaN >= 0` is
false in JavaScript), yet only the single "must be a number" error is
produced — the source checks the second condition in an `else if`, so the
two conditions are not both checked. -/
theorem claim6_counterexample :
    (¬ ∃ q : ℚ, (some (JValue.num JNum.nan) : Option JValue) =
      some (JValue.num (JNum.val q))) ∧
    jsNumGE0 JNum.nan = false ∧
    (checkOne (fun _ => false) [] "R" 0 []
        (JValue.obj [("penalty", JValue.num JNum.nan)])).filter
      (fun d => d.path == basePath 0 ++ ".penalty") =
      [⟨"R", basePath 0 ++ ".penalty", "penalty must be a number."⟩] :=
  ⟨by rintro ⟨q, h⟩; simp at h, rfl, by decide⟩

/-- Claim C6 (amended: the two penalty conditions are checked
sequentially, not independently): `penalty` must be a non-NaN number,
violation yielding one error; only when it is a number, negativity is
additionally checked, yielding a distinct error; at most one penalty error
is produced per entry. -/
theorem claim6_penalty (fsE : String → Bool) (sel : List String) (file : String)
    (i : ℕ) (seen : List String) (cfs : List (String × JValue)) :
    ((checkOne fsE sel file i seen (JValue.obj cfs)).filter
        (fun d => d.path == basePath i ++ ".penalty") =
        [⟨file, basePath i ++ ".penalty", "penalty must be a number."⟩] ↔
      ¬ ∃ q : ℚ, lookupField cfs "penalty" = some (JValue.num (JNum.val q))) ∧
    (∀ q : ℚ, lookupField cfs "penalty" = some (JValue.num (JNum.val q)) →
      (checkOne fsE sel file i seen (JValue.obj cfs)).filter
        (fun d => d.path == basePath i ++ ".penalty") =
        if q < 0 then [⟨file, basePath i ++ ".penalty", "penalty must be >= 0."⟩] else []) ∧
    ((checkOne fsE sel file i seen (JValue.obj cfs)).filter
        (fun d => d.path == basePath i ++ ".penalty")).length ≤ 1 := by
  have hp := checkOne_filter_penalty fsE sel file i seen cfs
  refine ⟨?_, ?_, ?_⟩
  · rw [hp]
    exact penaltyErrors_num_iff file (basePath i) (lookupField cfs "penalty")
  · intro q hq
    rw [hp, hq]
    exact penaltyErrors_val file (basePath i) q
  · rw [hp]
    exact penaltyErrors_len file (basePath i) (lookupField cfs "penalty")

/-- Witness for C6 at `penalty = -1`: the distinct ">= 0" error fires. -/
theorem claim6_witness :
    (checkOne (fun _ => false) [] "R" 0 []
        (JValue.obj [("penalty", JValue.num (JNum.val (-1)))])).filter
      (fun d => d.path == basePath 0 ++ ".penalty") =
      if (-1 : ℚ) < 0 then [⟨"R", basePath 0 ++ ".penalty", "penalty must be >= 0."⟩]
      else [] :=
  (claim6_penalty (fun _ => false) [] "R" 0 []
    [("penalty", JValue.num (JNum.val (-1)))]).2.1 (-1) rfl

/-- Counterexample to C7 as stated: `promptRef = " "` is a non-empty
string whose path does not exist, so the claim predicts a file-not-found
error; the validator instead reports the "required" error, because it
tests `promptRef.trim()`, not emptiness. -/
theorem claim7_counterexample :
    ((" " : String) ≠ "" ∧ (fun (_ : String) => false) " " = false) ∧
    (checkOne (fun _ => false) [] "R" 0 []
        (JValue.obj [("rule", JValue.obj
          [("op", JValue.str "llm"), ("promptRef", JValue.str " ")])])).filter
      (fun d => d.path == basePath 0 ++ ".rule.promptRef") =
      [⟨"R", basePath 0 ++ ".rule.promptRef", "promptRef is required for op=llm."⟩] :=
  ⟨⟨by decide, rfl⟩, by decide⟩

/-- Claim C7 (amended: "empty" means blank, i.e. empty after trimming):
for `rule.op = llm`, a missing, non-string, or blank `promptRef` yields
the "required" error and the filesystem probe does not influence the
result; a non-blank `promptRef` whose path is absent yields the distinct
file-not-found error, and one whose path exists yields none; `introBlocks`
is only checked when present, requiring an integer >= 1. -/
theorem claim7_llm (fsE : String → Bool) (sel : List String) (file : String)
    (i : ℕ) (seen : List String) (cfs rfs : List (String × JValue))
    (hrule : lookupField cfs "rule" = some (JValue.obj rfs))
    (hop : lookupField rfs "op" = some (JValue.str "llm")) :
    ((¬ ∃ s : String, lookupField rfs "promptRef" = some (JValue.str s) ∧
        (jsTrim s).length ≠ 0) →
      (checkOne fsE sel file i seen (JValue.obj cfs)).filter
        (fun d => d.path == basePath i ++ ".rule.promptRef") =
        [⟨file, basePath i ++ ".rule.promptRef", "promptRef is required for op=llm."⟩] ∧
      (∀ fsE₂ : String → Bool,
        checkOne fsE₂ sel file i seen (JValue.obj cfs) =
          checkOne fsE sel file i seen (JValue.obj cfs))) ∧
    (∀ s : String, lookupField rfs "promptRef" = some (JValue.str s) →
      (jsTrim s).length ≠ 0 → fsE s = false →
      (checkOne fsE sel file i seen (JValue.obj cfs)).filter
        (fun d => d.path == basePath i ++ ".rule.promptRef") =
        [⟨file, basePath i ++ ".rule.promptRef", "file not found " ++ sq ++ s ++ sq⟩]) ∧
    (∀ s : String, lookupField rfs "promptRef" = some (JValue.str s) →
      (jsTrim s).length ≠ 0 → fsE s = true →
      (checkOne fsE sel file i seen (JValue.obj cfs)).filter
        (fun d => d.path == basePath i ++ ".rule.promptRef") = []) ∧
    (lookupField rfs "introBlocks" = none →
      (checkOne fsE sel file i seen (JValue.obj cfs)).filter
        (fun d => d.path == basePath i ++ ".rule.introBlocks") = []) ∧
    (∀ v : JValue, lookupField rfs "introBlocks" = some v →
      ((checkOne fsE sel file i seen (JValue.obj cfs)).filter
        (fun d => d.path == basePath i ++ ".rule.introBlocks") = [] ↔
        ∃ q : ℚ, v = JValue.num (JNum.val q) ∧ q.den = 1 ∧ 1 ≤ q)) := by
  have hpr : ∀ fsE₃ : String → Bool,
      (checkOne fsE₃ sel file i seen (JValue.obj cfs)).filter
        (fun d => d.path == basePath i ++ ".rule.promptRef") =
        promptRefErrors fsE₃ file (basePath i) (lookupField rfs "promptRef") := by
    intro fsE₃
    rw [checkOne_eq_llm fsE₃ sel file i seen cfs rfs hrule hop]
    simp only [List.filter_append]
    rw [filter_path_eq_nil (fun d hd => by
      rw [idErrors_path hd]; exact strAppend_ne_of_ne _ (by decide))]
    rw [filter_path_eq_nil (fun d hd => by
      rw [severityErrors_path hd]; exact strAppend_ne_of_ne _ (by decide))]
    rw [filter_path_eq_nil (fun d hd => by
      rw [dimensionErrors_path hd]; exact strAppend_ne_of_ne _ (by decide))]
    rw [filter_path_eq_nil (fun d hd => by
      rw [penaltyErrors_path hd]; exact strAppend_ne_of_ne _ (by decide))]
    rw [filter_path_eq_nil (fun d hd => by
      rw [messageErrors_path hd]; exact strAppend_ne_of_ne _ (by decide))]
    rw [filter_path_self (fun d hd => promptRefErrors_path hd)]
    rw [filter_path_eq_nil (fun d hd => by
      rw [introBlocksErrors_path hd]; exact strAppend_ne_of_ne _ (by decide))]
    simp
  have hib : (checkOne fsE sel file i seen (JValue.obj cfs)).filter
      (fun d => d.path == basePath i ++ ".rule.introBlocks") =
      introBlocksErrors file (basePath i) (lookupField rfs "introBlocks") := by
    rw [checkOne_eq_llm fsE sel file i seen cfs rfs hrule hop]
    simp only [List.filter_append]
    rw [filter_path_eq_nil (fun d hd => by
      rw [idErrors_path hd]; exact strAppend_ne_of_ne _ (by decide))]
    rw [filter_path_eq_nil (fun d hd => by
      rw [severityErrors_path hd]; exact strAppend_ne_of_ne _ (by decide))]
    rw [filter_path_eq_nil (fun d hd => by
      rw [dimensionErrors_path hd]; exact strAppend_ne_of_ne _ (by decide))]
    rw [filter_path_eq_nil (fun d hd => by
      rw [penaltyErrors_path hd]; exact strAppend_ne_of_ne _ (by decide))]
    rw [filter_path_eq_nil (fun d hd => by
      rw [messageErrors_path hd]; exact strAppend_ne_of_ne _ (by decide))]
    rw [filter_path_eq_nil (fun d hd => by
      rw [promptRefErrors_path hd]; exact strAppend_ne_of_ne _ (by decide))]
    rw [filter_path_self (fun d hd => introBlocksErrors_path hd)]
    simp
  refine ⟨?_, ?_, ?_, ?_, ?_⟩
  · intro hinv
    constructor
    · rw [hpr fsE]
      exact promptRefErrors_invalid fsE file (basePath i) (lookupField rfs "promptRef") hinv
    · intro fsE₂
      rw [checkOne_eq_llm fsE₂ sel file i seen cfs rfs hrule hop,
        checkOne_eq_llm fsE sel file i seen cfs rfs hrule hop,
        promptRefErrors_invalid fsE₂ file (basePath i) (lookupField rfs "promptRef") hinv,
        promptRefErrors_invalid fsE file (basePath i) (lookupField rfs "promptRef") hinv]
  · intro s hs ht hfs
    rw [hpr fsE, hs]
    exact promptRefErrors_notfound fsE file (basePath i) s ht hfs
  · intro s hs ht hfs
    rw [hpr fsE, hs]
    exact promptRefErrors_found fsE file (basePath i) s ht hfs
  · intro hnone
    rw [hib, hnone]
    rfl
  · intro v hv
    rw [hib, hv]
    exact introBlocksErrors_some_iff file (basePath i) v

/-- Witness for C7: `promptRef = "p.md"` on a filesystem where nothing
exists yields the file-not-found error, and an absent `introBlocks` yields
no error. -/
theorem claim7_witness :
    (checkOne (fun _ => false) [] "R" 0 []
        (JValue.obj [("rule", JValue.obj
          [("op", JValue.str "llm"), ("promptRef", JValue.str "p.md")])])).filter
      (fun d => d.path == basePath 0 ++ ".rule.promptRef") =
      [⟨"R", basePath 0 ++ ".rule.promptRef", "file not found " ++ sq ++ "p.md" ++ sq⟩] ∧
    (checkOne (fun _ => false) [] "R" 0 []
        (JValue.obj [("rule", JValue.obj
          [("op", JValue.str "llm"), ("promptRef", JValue.str "p.md")])])).filter
      (fun d => d.path == basePath 0 ++ ".rule.introBlocks") = [] := by
  have H := claim7_llm (fun _ => false) [] "R" 0 []
    [("rule", JValue.obj [("op", JValue.str "llm"), ("promptRef", JValue.str "p.md")])]
    [("op", JValue.str "llm"), ("promptRef", JValue.str "p.md")] rfl rfl
  exact ⟨H.2.1 "p.md" rfl (by decide) rfl, H.2.2.2.1 rfl⟩

end RulesetSemantics
